import Mathlib

/-!
Verification of the data pipeline of the electricity-theft-detection
repository: a shallow embedding in Lean 4 of the loader
(`src/data/data_loader.py`), preprocessor (`src/data/preprocessor.py`),
class balancer (`src/data/class_balancer.py`), validator
(`src/utils/validators.py`) and feature engineer
(`src/data/feature_engineer.py`), together with theorems settling the
specification claims about them.

Modelling conventions:
- pandas DataFrames are lists of row structures; a cell that is NaN, or
  that remains non-numeric after `pd.to_numeric(..., errors="coerce")`,
  is `none`; numeric cells are `some q` with `q : ℚ`.
- dates are integers counting days since 1970-01-01 (the pandas epoch);
  an unparseable date (`NaT`) is `none`.
- strings are Lean `String`s, but all computation on them is done on
  their character lists with structural recursion so that concrete
  instances evaluate inside the kernel.
- floating-point arithmetic is modelled by exact arithmetic on `ℚ`
  (and on `ℝ` where a square root is required).
-/

namespace ETD

/-! ## Calendar arithmetic (days since 1970-01-01, Hinnant's civil-date algorithm) -/

def isLeap (y : ℕ) : Bool := y % 4 = 0 && (y % 100 ≠ 0 || y % 400 = 0)

def daysInMonth (y m : ℕ) : ℕ :=
  if m = 2 then (if isLeap y then 29 else 28)
  else if m = 4 ∨ m = 6 ∨ m = 9 ∨ m = 11 then 30
  else 31

/-- Day count since 1970-01-01 of the civil date y-m-d (valid for any civil date). -/
def daysFromCivil (y m d : ℕ) : ℤ :=
  let yAdj : ℤ := (y : ℤ) - (if m ≤ 2 then 1 else 0)
  let era : ℤ := yAdj.fdiv 400
  let yoe : ℤ := yAdj - era * 400
  let mp : ℕ := if 2 < m then m - 3 else m + 9
  let doy : ℤ := ((153 * mp + 2) / 5 : ℕ) + (d : ℤ) - 1
  let doe : ℤ := yoe * 365 + yoe.fdiv 4 - yoe.fdiv 100 + doy
  era * 146097 + doe - 719468

/-- Month (1..12) of the civil date that is `z` days after 1970-01-01. -/
def monthFromDays (z : ℤ) : ℕ :=
  let z2 : ℤ := z + 719468
  let era : ℤ := z2.fdiv 146097
  let doe : ℕ := (z2 - era * 146097).toNat
  let yoe : ℕ := (doe - doe / 1460 + doe / 36524 - doe / 146096) / 365
  let doy : ℕ := doe - (365 * yoe + yoe / 4 - yoe / 100)
  let mp : ℕ := (5 * doy + 2) / 153
  if mp < 10 then mp + 3 else mp - 9

/-- Day of week with Monday = 0 (the pandas `dayofweek` convention) of day `z`. -/
def dayOfWeekPandas (z : ℤ) : ℕ := ((z + 3).fmod 7).toNat

/-! ## Character-list string helpers (structural recursion, so they reduce in the kernel) -/

def slashChar : Char := Char.ofNat 47

def splitSlash : List Char → List Char → List (List Char)
  | [], acc => [acc.reverse]
  | c :: rest, acc =>
    if c = slashChar then acc.reverse :: splitSlash rest []
    else splitSlash rest (c :: acc)

def digitVal (c : Char) : Option ℕ :=
  if Char.ofNat 48 ≤ c ∧ c ≤ Char.ofNat 57 then some (c.toNat - 48) else none

def digitsAux : List Char → ℕ → Option ℕ
  | [], acc => some acc
  | c :: rest, acc =>
    match digitVal c with
    | some d => digitsAux rest (acc * 10 + d)
    | none => none

/-- Parse a nonempty all-digit character list as a natural number. -/
def digitsToNat : List Char → Option ℕ
  | [] => none
  | l => digitsAux l 0

def charLt (a b : Char) : Bool := a.toNat < b.toNat

def lexLt : List Char → List Char → Bool
  | [], [] => false
  | [], _ :: _ => true
  | _ :: _, [] => false
  | a :: as, b :: bs => charLt a b || (a = b && lexLt as bs)

def strLt (a b : String) : Bool := lexLt a.data b.data

/-! ## DatasetLoader (`SGCCDataLoader`, src/data/data_loader.py) -/

/-- Parse of a date-column header with `format="%m/%d/%Y"` and
`errors="coerce"`: month/day/year split on slashes, all-digit fields,
month 1..12, day valid for that month, year within the pandas
`Timestamp` bounds. Returns the day count since 1970-01-01, or `none`
for `NaT`. -/
def parseMDY (chars : List Char) : Option ℤ :=
  match splitSlash chars [] with
  | [ms, ds, ys] =>
    match digitsToNat ms, digitsToNat ds, digitsToNat ys with
    | some m, some d, some y =>
      if 1 ≤ m ∧ m ≤ 12 ∧ 1 ≤ d ∧ d ≤ daysInMonth y m ∧ 1678 ≤ y ∧ y ≤ 2261 then
        some (daysFromCivil y m d)
      else none
    | _, _, _ => none
  | _ => none

/-- Embedding of `parse_date_column` (data_loader.py:215-224): headers
containing a slash go through the `%m/%d/%Y` parse with coercion; the
slash-free branch calls the generic `pd.to_datetime`, modelled here as
`NaT` (which is its result on the non-date header strings at issue). -/
def parse_date_column (s : String) : Option ℤ :=
  if s.data.contains slashChar then parseMDY s.data else none

/-- One row of the wide SGCC matrix: meter identifier (`CONS_NO`),
binary label (`FLAG`), and one consumption cell per date column. -/
structure WideRow where
  consNo : String
  flag : ℤ
  vals : List (Option ℚ)
deriving DecidableEq, Repr

/-- The wide matrix handed to `convert_sgcc_wide_to_long`: the date
column headers (all columns except `CONS_NO` and `FLAG`) and the rows. -/
structure WideMatrix where
  dateHeaders : List String
  rows : List WideRow
deriving DecidableEq, Repr

/-- One row of the long table produced by the loader. -/
structure LongRow where
  meter_id : String
  label : ℤ
  date : Option ℤ
  consumption : Option ℚ
deriving DecidableEq, Repr

/-- Pandas elementwise equality on dates: `NaT` compares unequal to
everything, including itself. -/
def optDateEqB (a b : Option ℤ) : Bool :=
  match a, b with
  | some x, some y => x = y
  | _, _ => false

/-- The long row melted from entity row `r` and the date column with
header `h` at position `j`. -/
def meltCell (h : String) (j : ℕ) (r : WideRow) : LongRow :=
  { meter_id := r.consNo, label := r.flag,
    date := parse_date_column h,
    consumption := r.vals.getD j none }

/-- Embedding of `pd.melt(df, id_vars=[meter_id, label], value_vars=date_columns)`
followed by the date parse: rows are laid out column-major (for each date
column in order, all entity rows in order), which is the pandas melt order
and fixes the positional index used later by the repair loop. -/
def meltParsed (w : WideMatrix) : List LongRow :=
  (w.dateHeaders.enum.map (fun p => w.rows.map (meltCell p.2 p.1))).flatten

def dictInsert (d : List (String × ℤ)) (k : String) (v : ℤ) : List (String × ℤ) :=
  if d.any (fun kv => kv.1 = k) then d.map (fun kv => if kv.1 = k then (k, v) else kv)
  else d ++ [(k, v)]

def dictGet (d : List (String × ℤ)) (k : String) : Option ℤ :=
  (d.find? (fun kv => kv.1 = k)).map (·.2)

def minList : List ℤ → Option ℤ
  | [] => none
  | x :: xs =>
    match minList xs with
    | none => some x
    | some m => some (min x m)

/-- Embedding of the date-repair mapping construction (data_loader.py:241-244):
for each date column in order, the column is added to the dict exactly when no
long-table row carries a non-null date equal to the column's own parse (for an
unparseable column that comparison is against `NaT` and is elementwise false,
so the filtered frame is empty and the column is mapped to
`start_date + offset` days). Later writes to an equal key win. -/
def buildDateMapping (dateCols : List String) (melted : List LongRow)
    (startDate : ℤ) : List (String × ℤ) :=
  dateCols.enum.foldl
    (fun acc p =>
      if melted.any (fun r => r.date.isSome && optDateEqB r.date (parse_date_column p.2)) then
        acc
      else dictInsert acc p.2 (startDate + p.1))
    []

def dateLeB (a b : Option ℤ) : Bool :=
  match a, b with
  | none, none => true
  | none, some _ => false
  | some _, none => true
  | some x, some y => x ≤ y

/-- Sort key of `df_long.sort_values([meter_id, date])`: meter ascending,
then date ascending with `NaT` last. -/
def longRowLe (a b : LongRow) : Bool :=
  strLt a.meter_id b.meter_id ||
    (a.meter_id = b.meter_id && dateLeB a.date b.date)

def insertSorted {α : Type} (le : α → α → Bool) (x : α) : List α → List α
  | [] => [x]
  | y :: ys => if le x y then x :: y :: ys else y :: insertSorted le x ys

/-- Insertion sort, the embedding of `sort_values` (pandas' default sort is
not stable; no claim below depends on the order of tied keys). -/
def sortRows {α : Type} (le : α → α → Bool) : List α → List α
  | [] => []
  | x :: xs => insertSorted le x (sortRows le xs)

/-- Embedding of the repair-loop body (data_loader.py:246-252): a row
with a `NaT` date looks up `date_columns[idx % len(date_columns)]` —
`idx` being the row's position in the melted frame — in the repair dict
and takes the mapped date when that (in general unrelated) column is a
key of the dict. -/
def repairRow (mapping : List (String × ℤ)) (dateCols : List String)
    (p : ℕ × LongRow) : LongRow :=
  if p.2.date.isNone then
    match dictGet mapping (dateCols.getD (p.1 % dateCols.length) ("")) with
    | some d => { p.2 with date := some d }
    | none => p.2
  else p.2

/-- Embedding of `SGCCDataLoader.convert_sgcc_wide_to_long`
(data_loader.py:184-278): melt to long format, parse the headers, run the
sequential-date repair when some header failed to parse, coerce consumption
(already modelled by the `Option ℚ` cells), drop rows whose consumption is
still non-numeric, and sort by (meter_id, date). -/
def convert_sgcc_wide_to_long (w : WideMatrix) : List LongRow :=
  let dateCols := w.dateHeaders
  let melted := meltParsed w
  let failed := melted.countP (fun r => r.date.isNone)
  let repaired :=
    if failed = 0 then melted
    else
      let parsedDates := melted.filterMap (·.date)
      let startDate :=
        match minList parsedDates with
        | some m => m
        | none => daysFromCivil 2014 1 1
      let mapping := buildDateMapping dateCols melted startDate
      melted.enum.map (repairRow mapping dateCols)
  let kept := repaired.filter (fun r => r.consumption.isSome)
  sortRows longRowLe kept

/-- Error taxonomy of the load path. The repository raises a plain
`ValueError` for a missing required column; the specification names this
fatal condition `DataFormatError`. -/
inductive LoadError where
  | dataFormatError (column : String)
  | fileNotFound (msg : String)
deriving DecidableEq, Repr

/-- The raw CSV frame as seen by `load_real_sgcc_data`: only its column
set matters for the validation at data_loader.py:87-91. -/
structure RawFrame where
  columns : List String
deriving DecidableEq, Repr

/-- Embedding of the column validation of
`SGCCDataLoader.load_real_sgcc_data` (data_loader.py:87-91): the load
aborts with the format error when `CONS_NO` or `FLAG` is absent, and
otherwise returns the frame. -/
def load_real_sgcc_data (raw : RawFrame) : Except LoadError RawFrame :=
  if ¬ raw.columns.contains ("CONS_NO") then
    .error (.dataFormatError ("CONS_NO"))
  else if ¬ raw.columns.contains ("FLAG") then
    .error (.dataFormatError ("FLAG"))
  else .ok raw

/-! ## Preprocessor (`ElectricityDataPreprocessor`, src/data/preprocessor.py) -/

/-- One row of the long table as consumed by the preprocessor; a missing
consumption value (NaN) is `none`. -/
structure PRow where
  meter_id : String
  date : ℤ
  consumption : Option ℚ
deriving DecidableEq, Repr

def pRowLe (a b : PRow) : Bool :=
  strLt a.meter_id b.meter_id || (a.meter_id = b.meter_id && a.date ≤ b.date)

/-- First-appearance list of distinct meter ids (`df['meter_id'].unique()`). -/
def uniqueMeters (rows : List PRow) : List String :=
  rows.foldl (fun acc r => if r.meter_id ∈ acc then acc else acc ++ [r.meter_id]) []

/-- Positions and values of the non-null entries of a consumption series. -/
def indexedSomes (l : List (Option ℚ)) : List (ℕ × ℚ) :=
  l.enum.filterMap (fun p => p.2.map (fun v => (p.1, v)))

/-- Embedding of `Series.interpolate(method='linear', limit_direction='both')`:
interior gaps are interpolated linearly by position between the nearest
non-null neighbours; leading/trailing gaps take the nearest non-null value;
an all-null series stays all-null. -/
def interpolateBoth (l : List (Option ℚ)) : List (Option ℚ) :=
  let ks := indexedSomes l
  l.enum.map (fun p =>
    match p.2 with
    | some v => some v
    | none =>
      match (ks.filter (fun q => q.1 < p.1)).getLast?, ks.find? (fun q => p.1 < q.1) with
      | some jv, some kv =>
        some (jv.2 + (kv.2 - jv.2) * (((p.1 : ℚ) - jv.1) / ((kv.1 : ℚ) - jv.1)))
      | some jv, none => some jv.2
      | none, some kv => some kv.2
      | none, none => none)

/-- Embedding of `fillna(method='ffill')` followed by `fillna(method='bfill')`. -/
def ffillBfill (l : List (Option ℚ)) : List (Option ℚ) :=
  let ks := indexedSomes l
  l.enum.map (fun p =>
    match p.2 with
    | some v => some v
    | none =>
      match (ks.filter (fun q => q.1 < p.1)).getLast? with
      | some jv => some jv.2
      | none =>
        match ks.find? (fun q => p.1 < q.1) with
        | some kv => some kv.2
        | none => none)

/-- Embedding of `groupby('meter_id')['consumption'].transform(f)`: each row
receives the element of `f` applied to its meter's series that sits at the
row's position within the group. -/
def transformPerMeter (f : List (Option ℚ) → List (Option ℚ))
    (s : List PRow) : List PRow :=
  s.enum.map (fun p =>
    let seq := (s.filter (fun r => r.meter_id = p.2.meter_id)).map (·.consumption)
    let rank := ((s.take p.1).filter (fun r => r.meter_id = p.2.meter_id)).length
    { p.2 with consumption := (f seq).getD rank none })

def listSumQ (l : List ℚ) : ℚ := l.foldr (· + ·) 0

/-- Pandas `Series.mean()` (NaN on an all-null series). -/
def listMeanOpt (l : List ℚ) : Option ℚ :=
  if l.length = 0 then none else some (listSumQ l / l.length)

def sortQ (l : List ℚ) : List ℚ := sortRows (fun a b => a ≤ b) l

/-- Pandas `Series.median()`: midpoint interpolation, NaN on an all-null series. -/
def listMedianOpt (l : List ℚ) : Option ℚ :=
  let s := sortQ l
  let n := s.length
  if n = 0 then none
  else if n % 2 = 1 then some (s.getD (n / 2) 0)
  else some ((s.getD (n / 2 - 1) 0 + s.getD (n / 2) 0) / 2)

/-- Non-null consumption values of one meter, in row order. -/
def meterValues (rows : List PRow) (m : String) : List ℚ :=
  (rows.filter (fun r => r.meter_id = m)).filterMap (·.consumption)

/-- Embedding of `Series.get(key, default)` on the per-meter aggregate:
the default is only returned when the key is absent from the group index
(and every meter of the frame is present in it). -/
def seriesGet (d : List (String × Option ℚ)) (k : String) (dflt : Option ℚ) :
    Option ℚ :=
  match d.find? (fun kv => kv.1 = k) with
  | some kv => kv.2
  | none => dflt

/-- Embedding of `ElectricityDataPreprocessor.handle_missing_values`
(preprocessor.py:31-101). `method` is the strategy string; an unknown
string falls through every branch and returns the frame unchanged, as in
the source. The `mean`/`median` branches reproduce the source exactly:
the fill value is `meter_means.get(meter_id, global_mean)`, and since
every meter of the frame is a key of `meter_means`, an all-null meter's
fill value is its own NaN mean, not the global one. -/
def handle_missing_values (method : String) (rows : List PRow) : List PRow :=
  if rows.countP (fun r => r.consumption.isNone) = 0 then rows
  else if method = "linear" then
    transformPerMeter interpolateBoth (sortRows pRowLe rows)
  else if method = "forward_fill" then
    transformPerMeter ffillBfill (sortRows pRowLe rows)
  else if method = "mean" then
    let meterMeans := (uniqueMeters rows).map (fun m => (m, listMeanOpt (meterValues rows m)))
    let globalMean := listMeanOpt (rows.filterMap (·.consumption))
    rows.map (fun r =>
      if r.consumption.isNone then
        { r with consumption := seriesGet meterMeans r.meter_id globalMean }
      else r)
  else if method = "median" then
    let meterMedians := (uniqueMeters rows).map (fun m => (m, listMedianOpt (meterValues rows m)))
    let globalMedian := listMedianOpt (rows.filterMap (·.consumption))
    rows.map (fun r =>
      if r.consumption.isNone then
        { r with consumption := seriesGet meterMedians r.meter_id globalMedian }
      else r)
  else rows

/-- Output row of the outlier-capping stage; bounds involve a square root,
so capped values live in `ℝ`. -/
structure RRow where
  meter_id : String
  date : ℤ
  consumption : Option ℝ

noncomputable def listMeanR (l : List ℝ) : ℝ := l.sum / l.length

noncomputable def popVarR (l : List ℝ) : ℝ :=
  ((l.map (fun x => (x - listMeanR l) ^ 2)).sum) / l.length

/-- Population standard deviation (`scipy.stats.zscore` uses `ddof=0`). -/
noncomputable def popStdR (l : List ℝ) : ℝ := Real.sqrt (popVarR l)

noncomputable def sampleVarR (l : List ℝ) : ℝ :=
  ((l.map (fun x => (x - listMeanR l) ^ 2)).sum) / ((l.length : ℝ) - 1)

/-- Sample standard deviation (`Series.std()` uses `ddof=1`). -/
noncomputable def sampleStdR (l : List ℝ) : ℝ := Real.sqrt (sampleVarR l)

/-- The `z_scores > threshold` mask has a true entry: some non-null value
has population z-score above `T` (a zero population std makes every
z-score NaN, hence no outlier). -/
def AnyZOutlier (T : ℝ) (vals : List ℝ) : Prop :=
  ∃ v ∈ vals, popStdR vals ≠ 0 ∧ |v - listMeanR vals| / popStdR vals > T

noncomputable def clipR (x lo hi : ℝ) : ℝ := min (max x lo) hi

/-- The rational-to-real cast as a named function (keeps the embedding
of float views free of coercion-elaboration artifacts). -/
def qr (q : ℚ) : ℝ := (q : ℝ)

/-- Non-null consumption values of one meter, as reals (the `dropna`
plus float view the z-score stage works on). -/
def meterValuesR (rows : List PRow) (m : String) : List ℝ :=
  (rows.filter (fun x => x.meter_id = m)).filterMap
    (fun x => x.consumption.map qr)

open Classical in
/-- Embedding of the `zscore` branch of
`ElectricityDataPreprocessor.detect_and_remove_outliers`
(preprocessor.py:125-148): per meter with more than 10 rows whose
z-score mask has a hit, clip every value of the meter to
`[max(0, mean - T*std), mean + T*std]`, with mean/std taken from the
meter's pre-capping non-null values (sample std); all other rows are
returned unchanged. -/
noncomputable def detect_and_remove_outliers_zscore (T : ℝ) (rows : List PRow) :
    List RRow :=
  rows.map (fun r =>
    let grp := rows.filter (fun x => x.meter_id = r.meter_id)
    let vals := meterValuesR rows r.meter_id
    let lo := max 0 (listMeanR vals - T * sampleStdR vals)
    let hi := listMeanR vals + T * sampleStdR vals
    if 10 < grp.length ∧ AnyZOutlier T vals then
      { meter_id := r.meter_id, date := r.date,
        consumption := r.consumption.map (fun q => clipR (qr q) lo hi) }
    else
      { meter_id := r.meter_id, date := r.date,
        consumption := r.consumption.map qr })

/-! ## ClassBalancer (`ClassBalancer`, src/data/class_balancer.py)

Feature rows are an arbitrary type `α`; a sample is a pair of a feature
row and its integer label. Third-party samplers (imbalanced-learn) are
parameters returning `Except`: an `.error` models the exception the
library raises (for instance when the minority class has fewer than
`k_neighbors + 1` samples), which the repository catches and turns into
the random-oversampling fallback. `sklearn.utils.resample` with a fixed
`random_state` and the final deterministic shuffle are modelled by a
concrete deterministic selection and the identity permutation. -/

structure ClassAnalysis where
  total_samples : ℕ
  class_counts : List (ℤ × ℕ)
  imbalance_ratio : ℚ
deriving DecidableEq, Repr

def dedupZ (l : List ℤ) : List ℤ :=
  l.foldl (fun acc v => if v ∈ acc then acc else acc ++ [v]) []

/-- Embedding of `ClassBalancer.analyze_class_distribution`
(class_balancer.py:41-71); only the fields a claim mentions are kept. -/
def analyze_class_distribution (y : List ℤ) : ClassAnalysis :=
  let labs := dedupZ y
  let counts := labs.map (fun v => (v, y.countP (fun x => x = v)))
  let maxC := (counts.map (·.2)).foldr max 0
  let minC := (counts.map (·.2)).foldr min maxC
  { total_samples := y.length, class_counts := counts,
    imbalance_ratio := (maxC : ℚ) / (minC : ℚ) }

/-- Deterministic model of `sklearn.utils.resample(replace=True,
n_samples=n, random_state=42)`: `n` elements all drawn from the list
(sklearn raises on an empty input with positive `n`; theorems about this
function assume the list is nonempty). -/
def resampleWithReplacement {α : Type} (l : List (α × ℤ)) (n : ℕ) : List (α × ℤ) :=
  match l with
  | [] => []
  | x :: _ => (List.range n).map (fun i => l.getD (i % l.length) x)

/-- The minority size requested at class_balancer.py:98:
`int(total_majority * target_ratio / (1 - target_ratio))`; `int(...)`
truncation agrees with the floor on the nonnegative values that arise
for a ratio in `[0, 1)`. -/
def oversampleTarget (majorityCount : ℕ) (target_ratio : ℚ) : ℕ :=
  (Int.floor ((majorityCount : ℚ) * target_ratio / (1 - target_ratio))).toNat

/-- Embedding of `ClassBalancer.random_oversample`
(class_balancer.py:73-125): keep every majority (label 0) sample, redraw
the minority (label 1) class with replacement to the size the target
ratio determines, concatenate, shuffle (identity model). -/
def random_oversample {α : Type} (rows : List (α × ℤ)) (target_ratio : ℚ) :
    List (α × ℤ) :=
  let majority := rows.filter (fun p => p.2 = 0)
  let minority := rows.filter (fun p => p.2 = 1)
  majority ++ resampleWithReplacement minority (oversampleTarget majority.length target_ratio)

/-- Embedding of `ClassBalancer.random_undersample`
(class_balancer.py:127-179); sampling without replacement is modelled by
a deterministic prefix. -/
def random_undersample {α : Type} (rows : List (α × ℤ)) (target_ratio : ℚ) :
    List (α × ℤ) :=
  let majority := rows.filter (fun p => p.2 = 0)
  let minority := rows.filter (fun p => p.2 = 1)
  let targetMajoritySize := (Int.floor ((minority.length : ℚ) * (1 - target_ratio) / target_ratio)).toNat
  majority.take (min targetMajoritySize majority.length) ++ minority

/-- Embedding of `ClassBalancer.apply_smote` (class_balancer.py:181-226):
returns the balanced samples together with the `balancing_method`
attribute value the call sets. When imbalanced-learn is unavailable, or
the sampler raises, the call falls back to `random_oversample` with its
default ratio 0.5 and records `random_oversample`. -/
def apply_smote {α : Type} (available : Bool)
    (sampler : List (α × ℤ) → Except String (List (α × ℤ)))
    (rows : List (α × ℤ)) (variant : String) : List (α × ℤ) × String :=
  if available then
    match sampler rows with
    | .ok res => (res, String.append ("smote_") variant)
    | .error _ => (random_oversample rows (1 / 2), ("random_oversample"))
  else (random_oversample rows (1 / 2), ("random_oversample"))

/-- Embedding of `ClassBalancer.apply_adasyn` (class_balancer.py:228-264). -/
def apply_adasyn {α : Type} (available : Bool)
    (sampler : List (α × ℤ) → Except String (List (α × ℤ)))
    (rows : List (α × ℤ)) : List (α × ℤ) × String :=
  if available then
    match sampler rows with
    | .ok res => (res, ("adasyn"))
    | .error _ => (random_oversample rows (1 / 2), ("random_oversample"))
  else (random_oversample rows (1 / 2), ("random_oversample"))

/-- Embedding of `ClassBalancer.apply_combined_sampling`
(class_balancer.py:266-309); the `ValueError` raised for an unknown
combined method is caught by the function's own handler, so it too
degrades to the fallback. -/
def apply_combined_sampling {α : Type} (available : Bool)
    (sampler : List (α × ℤ) → Except String (List (α × ℤ)))
    (rows : List (α × ℤ)) (method : String) : List (α × ℤ) × String :=
  if available then
    if method = "smote_tomek" ∨ method = "smote_enn" then
      match sampler rows with
      | .ok res => (res, method)
      | .error _ => (random_oversample rows (1 / 2), ("random_oversample"))
    else (random_oversample rows (1 / 2), ("random_oversample"))
  else (random_oversample rows (1 / 2), ("random_oversample"))

/-- The balancing report assembled at class_balancer.py:359-374. Its
`method` field is written from the *requested* method argument; the
`balancing_method` attribute (returned alongside below) is the place the
actually-used method name lands. -/
structure BalanceReport where
  method : String
  original_samples : ℕ
  balanced_samples : ℕ
  samples_added : ℤ
  original_imbalance_ratio : ℚ
  balanced_imbalance_ratio : ℚ
deriving DecidableEq, Repr

/-- The method dispatch of `ClassBalancer.balance_dataset`
(class_balancer.py:335-353): the if/elif chain selecting the balancing
routine; an unknown method raises `ValueError`. -/
def balance_dispatch {α : Type} (available : Bool)
    (sampler : List (α × ℤ) → Except String (List (α × ℤ)))
    (rows : List (α × ℤ)) (method : String) (target_ratio : ℚ) :
    Except String (List (α × ℤ) × String) :=
  if method = "adasyn" then .ok (apply_adasyn available sampler rows)
  else if method = "smote" then .ok (apply_smote available sampler rows ("standard"))
  else if method = "borderline_smote" then .ok (apply_smote available sampler rows ("borderline"))
  else if method = "svm_smote" then .ok (apply_smote available sampler rows ("svm"))
  else if method = "smote_tomek" then .ok (apply_combined_sampling available sampler rows ("smote_tomek"))
  else if method = "smote_enn" then .ok (apply_combined_sampling available sampler rows ("smote_enn"))
  else if method = "random_over" then .ok (random_oversample rows target_ratio, ("random_oversample"))
  else if method = "random_under" then .ok (random_undersample rows target_ratio, ("random_undersample"))
  else .error method

/-- Embedding of `ClassBalancer.balance_dataset`
(class_balancer.py:311-387). `sampler` stands for the imbalanced-learn
sampler the dispatched method would use. The result carries the balanced
samples, the report assembled at class_balancer.py:359-374, and the
final `balancing_method` attribute. -/
def balance_dataset {α : Type} (available : Bool)
    (sampler : List (α × ℤ) → Except String (List (α × ℤ)))
    (rows : List (α × ℤ)) (method : String) (target_ratio : ℚ) :
    Except String (List (α × ℤ) × BalanceReport × String) :=
  match balance_dispatch available sampler rows method target_ratio with
  | .error e => .error e
  | .ok bal =>
    let origAnalysis := analyze_class_distribution (rows.map (·.2))
    let balAnalysis := analyze_class_distribution (bal.1.map (·.2))
    .ok (bal.1,
      { method := method,
        original_samples := rows.length,
        balanced_samples := bal.1.length,
        samples_added := (bal.1.length : ℤ) - (rows.length : ℤ),
        original_imbalance_ratio := origAnalysis.imbalance_ratio,
        balanced_imbalance_ratio := balAnalysis.imbalance_ratio },
      bal.2)

/-! ## Validator (`DataValidator`, src/utils/validators.py) -/

/-- Result of one of the five component checks: the `{valid, errors,
warnings}` dictionary each `validate_*` method returns. -/
structure CheckResult where
  valid : Bool
  errors : List String
  warnings : List String
deriving DecidableEq, Repr

/-- The fields of the comprehensive report that the claims mention. -/
structure ComprehensiveReport where
  overall_validity : Bool
  total_errors : ℕ
  total_warnings : ℕ
  validation_score : ℤ
deriving DecidableEq, Repr

/-- Embedding of the aggregation performed by
`DataValidator.comprehensive_validation` (validators.py:382-447) over
the five component check results: totals are the summed list lengths,
the score is `min(100, max(0, 100 - 10*errors - 2*warnings))`, and
overall validity is the conjunction of the five `valid` flags. -/
def comprehensive_validation (ty ra co ti bu : CheckResult) : ComprehensiveReport :=
  let totalErrors := ty.errors.length + ra.errors.length + co.errors.length +
    ti.errors.length + bu.errors.length
  let totalWarnings := ty.warnings.length + ra.warnings.length + co.warnings.length +
    ti.warnings.length + bu.warnings.length
  let score : ℤ := max 0 (100 - (totalErrors : ℤ) * 10 - (totalWarnings : ℤ) * 2)
  { overall_validity := ty.valid && ra.valid && co.valid && ti.valid && bu.valid,
    total_errors := totalErrors,
    total_warnings := totalWarnings,
    validation_score := min 100 score }

/-! ## FeatureEngineer (`ElectricityFeatureEngineer`, src/data/feature_engineer.py)

The feature engineer consumes the cleaned long table (no null
consumption). Feature tables are association lists from feature name to
value; a `none` value is a NaN produced by an aggregate (replaced by 0 by
the final `fillna(0)` of `combine_all_features`). The embedding models
the environment without `tsfresh` (`TSFRESH_AVAILABLE = False`), the
degraded path of the source; no claim touches tsfresh columns. The IEEE
infinity that a zero denominator would produce in `stat_cv` and in the
stability/ratio quotients is collapsed to the missing marker; it can only
arise from negative consumption values, which no claim exercises. -/

structure FRow where
  meter_id : String
  date : ℤ
  consumption : ℚ
deriving DecidableEq, Repr

def fRowLe (a b : FRow) : Bool :=
  strLt a.meter_id b.meter_id || (a.meter_id = b.meter_id && a.date ≤ b.date)

def uniqueStrings (l : List String) : List String :=
  l.foldl (fun acc s => if s ∈ acc then acc else acc ++ [s]) []

def strLe (a b : String) : Bool := strLt a b || a = b

/-- Meter keys in the sorted order `groupby` (with its default
`sort=True`) produces them. -/
def metersSortedF (df : List FRow) : List String :=
  sortRows strLe (uniqueStrings (df.map (·.meter_id)))

def lookupS {β : Type} (l : List (String × β)) (k : String) : Option β :=
  (l.find? (fun p => p.1 = k)).map (·.2)

def meanQ (l : List ℚ) : ℚ := listSumQ l / l.length

def centralSumQ (k : ℕ) (l : List ℚ) : ℚ :=
  listSumQ (l.map (fun x => (x - meanQ l) ^ k))

def minQD (l : List ℚ) : ℚ :=
  match l with
  | [] => 0
  | x :: xs => xs.foldl min x

def maxQD (l : List ℚ) : ℚ :=
  match l with
  | [] => 0
  | x :: xs => xs.foldl max x

/-- Pandas `Series.quantile(p)` / `np.percentile` with the default linear
interpolation, on a nonempty list. -/
def quantileQ (p : ℚ) (l : List ℚ) : ℚ :=
  let s := sortQ l
  let n := s.length
  let h : ℚ := p * ((n : ℚ) - 1)
  let lo := (Int.floor h).toNat
  let hi := min (lo + 1) (n - 1)
  s.getD lo 0 + (s.getD hi 0 - s.getD lo 0) * (h - (lo : ℚ))

/-- The group values of one meter in frame order (`groupby` keeps the
within-group row order). -/
def statValues (df : List FRow) (m : String) : List ℚ :=
  (df.filter (fun r => r.meter_id = m)).map (·.consumption)

/-- Embedding of the per-meter aggregate row of
`create_basic_statistical_features` (feature_engineer.py:39-79),
including the derived range/cv/iqr columns; `none` is the NaN an
aggregate yields on too few observations (std/var need 2, skew 3,
kurtosis 4; pandas returns 0 for skew/kurtosis of a constant series). -/
noncomputable def statFeaturesNamed (vs : List ℚ) : List (String × Option ℝ) :=
  let n := vs.length
  let μ : ℝ := (meanQ vs : ℝ)
  let m2 : ℝ := (centralSumQ 2 vs : ℝ)
  let m3 : ℝ := (centralSumQ 3 vs : ℝ)
  let m4 : ℝ := (centralSumQ 4 vs : ℝ)
  let nr : ℝ := (n : ℝ)
  let meanO : Option ℝ := if n = 0 then none else some μ
  let stdO : Option ℝ := if n < 2 then none else some (Real.sqrt (m2 / (nr - 1)))
  let varO : Option ℝ := if n < 2 then none else some (m2 / (nr - 1))
  let minO : Option ℝ := if n = 0 then none else some ((minQD vs : ℚ) : ℝ)
  let maxO : Option ℝ := if n = 0 then none else some ((maxQD vs : ℚ) : ℝ)
  let q25O : Option ℝ := if n = 0 then none else some ((quantileQ (1/4) vs : ℚ) : ℝ)
  let q75O : Option ℝ := if n = 0 then none else some ((quantileQ (3/4) vs : ℚ) : ℝ)
  let skewO : Option ℝ :=
    if n < 3 then none
    else if m2 = 0 then some 0
    else some (nr * Real.sqrt (nr - 1) / (nr - 2) * m3 / Real.sqrt m2 ^ 3)
  let kurtO : Option ℝ :=
    if n < 4 then none
    else if m2 = 0 then some 0
    else some (nr * (nr + 1) * (nr - 1) * m4 / ((nr - 2) * (nr - 3) * m2 ^ 2)
      - 3 * (nr - 1) ^ 2 / ((nr - 2) * (nr - 3)))
  let rangeO : Option ℝ :=
    match maxO, minO with
    | some a, some b => some (a - b)
    | _, _ => none
  let cvO : Option ℝ :=
    match stdO, meanO with
    | some s, some m => if m = 0 then none else some (s / m)
    | _, _ => none
  let iqrO : Option ℝ :=
    match q75O, q25O with
    | some a, some b => some (a - b)
    | _, _ => none
  [(("stat_mean"), meanO),
   (("stat_median"), (listMedianOpt vs).map (fun q => (q : ℝ))),
   (("stat_std"), stdO),
   (("stat_var"), varO),
   (("stat_min"), minO),
   (("stat_max"), maxO),
   (("stat_count"), some nr),
   (("stat_q25"), q25O),
   (("stat_q75"), q75O),
   (("stat_q90"), if n = 0 then none else some ((quantileQ (9/10) vs : ℚ) : ℝ)),
   (("stat_q95"), if n = 0 then none else some ((quantileQ (19/20) vs : ℚ) : ℝ)),
   (("stat_skew"), skewO),
   (("stat_kurtosis"), kurtO),
   (("stat_range"), rangeO),
   (("stat_cv"), cvO),
   (("stat_iqr"), iqrO)]

def dowOf (r : FRow) : ℕ := dayOfWeekPandas r.date

def isWeekendRow (r : FRow) : Bool := dowOf r = 5 ∨ dowOf r = 6

/-- Group mean after `unstack(fill_value=0)`: an absent group becomes 0. -/
def groupMeanFill (l : List ℚ) : ℝ := if l.length = 0 then 0 else ((meanQ l : ℚ) : ℝ)

/-- Group sample std after `unstack(fill_value=0)` and the block's
`fillna(0)`: absent group 0, singleton group NaN-then-0, else `ddof=1` std. -/
noncomputable def groupStdFill (l : List ℚ) : ℝ :=
  if l.length < 2 then 0 else Real.sqrt ((centralSumQ 2 l : ℝ) / ((l.length : ℝ) - 1))

/-- Embedding of the per-meter row of `create_temporal_features`
(feature_engineer.py:81-124): day-of-week means, calendar-month means,
weekend/weekday mean and std, and the weekend/weekday ratio with the
`1e-6` guard. -/
noncomputable def temporalFeaturesNamed (df : List FRow) (m : String) :
    List (String × ℝ) :=
  let mrows := df.filter (fun r => r.meter_id = m)
  let wd := (mrows.filter (fun r => ¬ isWeekendRow r)).map (·.consumption)
  let we := (mrows.filter (fun r => isWeekendRow r)).map (·.consumption)
  let weekdayMean := groupMeanFill wd
  let weekendMean := groupMeanFill we
  ((List.range 7).map (fun i =>
    (String.append (String.append ("temporal_weekday_") (Nat.repr i)) ("_avg"),
      groupMeanFill ((mrows.filter (fun r => dowOf r = i)).map (·.consumption)))))
  ++ ((List.range 12).map (fun i =>
    (String.append (String.append ("temporal_month_") (Nat.repr (i + 1))) ("_avg"),
      groupMeanFill ((mrows.filter (fun r => monthFromDays r.date = i + 1)).map (·.consumption)))))
  ++ [(("temporal_weekday_mean"), weekdayMean),
      (("temporal_weekday_std"), groupStdFill wd),
      (("temporal_weekend_mean"), weekendMean),
      (("temporal_weekend_std"), groupStdFill we),
      (("temporal_weekend_weekday_ratio"), weekendMean / (weekdayMean + 1/1000000))]

/-- The `columns = [...]` renames at feature_engineer.py:102-110 require a
column per day-of-week value, per calendar month and per weekend flag
present anywhere in the frame; with incomplete coverage the rename raises
and `combine_all_features` aborts. -/
def temporalCoverage (df : List FRow) : Bool :=
  ((List.range 7).all (fun i => df.any (fun r => dowOf r = i))) &&
  ((List.range 12).all (fun i => df.any (fun r => monthFromDays r.date = i + 1))) &&
  (df.any (fun r => isWeekendRow r)) && (df.any (fun r => ¬ isWeekendRow r))

/-- Embedding of `create_temporal_features`: `none` models the exception
raised on incomplete day-of-week/month/weekend coverage. -/
noncomputable def create_temporal_features (df : List FRow) :
    Option (List (String × List (String × ℝ))) :=
  if temporalCoverage df then
    some ((metersSortedF df).map (fun m => (m, temporalFeaturesNamed df m)))
  else none

/-- Population variance (`np.std` squared, `ddof=0`), exact in `ℚ`. -/
def popVarQ (l : List ℚ) : ℚ := centralSumQ 2 l / l.length

noncomputable def popStdQR (l : List ℚ) : ℝ := Real.sqrt ((popVarQ l : ℚ) : ℝ)

/-- Embedding of `np.corrcoef(a, b)[0, 1]`: `none` is the NaN of a
zero-variance argument. -/
noncomputable def corrOpt (a b : List ℚ) : Option ℝ :=
  let sa := centralSumQ 2 a
  let sb := centralSumQ 2 b
  let sab := listSumQ ((a.zip b).map (fun p => (p.1 - meanQ a) * (p.2 - meanQ b)))
  if sa = 0 ∨ sb = 0 then none
  else some ((sab : ℝ) / Real.sqrt ((sa : ℝ) * (sb : ℝ)))

/-- Least-squares slope of values against their 0-based time index
(`np.polyfit(x, y, 1)[0]`), exact in `ℚ`. -/
def slopeQ (vs : List ℚ) : ℚ :=
  let n := vs.length
  let xbar : ℚ := ((n : ℚ) - 1) / 2
  let vbar := meanQ vs
  let sxy := listSumQ (vs.enum.map (fun p => ((p.1 : ℚ) - xbar) * (p.2 - vbar)))
  let sxx := listSumQ ((List.range n).map (fun i => ((i : ℚ) - xbar) ^ 2))
  sxy / sxx

/-- The fixed name set of the pattern block's feature columns. -/
def patternNames : List String :=
  [("pattern_zero_days"), ("pattern_zero_ratio"),
   ("pattern_low_consumption_days"), ("pattern_low_consumption_ratio"),
   ("pattern_stability"), ("pattern_trend_slope"),
   ("pattern_avg_daily_change"), ("pattern_max_daily_drop"),
   ("pattern_max_daily_increase"), ("pattern_change_volatility"),
   ("pattern_significant_drops"), ("pattern_significant_increases"),
   ("pattern_autocorr_1day"), ("pattern_autocorr_7day")]

open Classical in
/-- Embedding of the per-meter feature dict of
`create_consumption_pattern_features` (feature_engineer.py:152-207),
after its NaN/Inf-to-0 sanitation loop. -/
noncomputable def patternFeaturesNamed (vs : List ℚ) : List (String × ℝ) :=
  let n := vs.length
  let zeroDays := vs.countP (fun v => v = 0)
  let p10 := quantileQ (1/10) vs
  let lowDays := vs.countP (fun v => v < p10)
  let stability : ℝ :=
    if meanQ vs + 1/1000000 = 0 then 0
    else popStdQR vs / ((meanQ vs : ℚ) + 1/1000000 : ℚ)
  let diffs := List.zipWith (fun a b => a - b) (vs.drop 1) vs
  let thr : ℝ := popStdQR diffs * 2
  let changeFeats : List ℝ :=
    if 1 < n then
      [((meanQ diffs : ℚ) : ℝ), ((minQD diffs : ℚ) : ℝ), ((maxQD diffs : ℚ) : ℝ),
       popStdQR diffs,
       ((diffs.countP (fun d => decide ((d : ℝ) < -thr)) : ℕ) : ℝ),
       ((diffs.countP (fun d => decide (thr < (d : ℝ))) : ℕ) : ℝ)]
    else [0, 0, 0, 0, 0, 0]
  let ac1 : ℝ :=
    if 7 < n then ((corrOpt (vs.take (n - 1)) (vs.drop 1)).getD 0) else 0
  let ac7 : ℝ :=
    if 7 < n then
      (if 14 < n then ((corrOpt (vs.take (n - 7)) (vs.drop 7)).getD 0) else 0)
    else 0
  [(("pattern_zero_days"), (zeroDays : ℝ)),
   (("pattern_zero_ratio"), (zeroDays : ℝ) / (n : ℝ)),
   (("pattern_low_consumption_days"), (lowDays : ℝ)),
   (("pattern_low_consumption_ratio"), (lowDays : ℝ) / (n : ℝ)),
   (("pattern_stability"), stability),
   (("pattern_trend_slope"), ((slopeQ vs : ℚ) : ℝ)),
   (("pattern_avg_daily_change"), changeFeats.getD 0 0),
   (("pattern_max_daily_drop"), changeFeats.getD 1 0),
   (("pattern_max_daily_increase"), changeFeats.getD 2 0),
   (("pattern_change_volatility"), changeFeats.getD 3 0),
   (("pattern_significant_drops"), changeFeats.getD 4 0),
   (("pattern_significant_increases"), changeFeats.getD 5 0),
   (("pattern_autocorr_1day"), ac1),
   (("pattern_autocorr_7day"), ac7)]

/-- Values of one meter in the (meter, date)-sorted order the pattern
block works in. -/
def patternValues (df : List FRow) (m : String) : List ℚ :=
  ((sortRows fRowLe df).filter (fun r => r.meter_id = m)).map (·.consumption)

/-- Embedding of `create_consumption_pattern_features`
(feature_engineer.py:126-216): meters with fewer than 30 rows are
skipped and contribute no row. -/
noncomputable def create_consumption_pattern_features (df : List FRow) :
    List (String × List (String × ℝ)) :=
  (uniqueStrings ((sortRows fRowLe df).map (·.meter_id))).filterMap (fun m =>
    let vs := patternValues df m
    if vs.length < 30 then none else some (m, patternFeaturesNamed vs))

/-- Embedding of `combine_all_features` (feature_engineer.py:293-336):
left-merge the temporal and pattern tables onto the statistical table on
`meter_id`, then replace every remaining NaN by 0. `none` models the two
failure modes: incomplete temporal coverage, and an empty pattern table
(whose frame then lacks the `meter_id` merge key, a `KeyError`). -/
noncomputable def combine_all_features (df : List FRow) :
    Option (List (String × List (String × ℝ))) :=
  match create_temporal_features df with
  | none => none
  | some temporalTbl =>
    let patternTbl := create_consumption_pattern_features df
    if patternTbl.isEmpty then none
    else some ((metersSortedF df).map (fun m =>
      (m, ((statFeaturesNamed (statValues df m)).map (fun p => (p.1, p.2.getD 0)))
        ++ (match lookupS temporalTbl m with
            | some t => t
            | none => [])
        ++ (match lookupS patternTbl m with
            | some pf => pf
            | none => patternNames.map (fun nm => (nm, (0 : ℝ)))))))

/-! ## Shared helper lemmas -/

theorem length_insertSorted {α : Type} (le : α → α → Bool) (x : α) (l : List α) :
    (insertSorted le x l).length = l.length + 1 := by
  induction l with
  | nil => rfl
  | cons y ys ih =>
    simp only [insertSorted]
    split
    · simp
    · simp [ih]

theorem length_sortRows {α : Type} (le : α → α → Bool) (l : List α) :
    (sortRows le l).length = l.length := by
  induction l with
  | nil => rfl
  | cons x xs ih => simp [sortRows, length_insertSorted, ih]

theorem perm_insertSorted {α : Type} (le : α → α → Bool) (x : α) (l : List α) :
    (insertSorted le x l).Perm (x :: l) := by
  induction l with
  | nil => simp [insertSorted]
  | cons y ys ih =>
    simp only [insertSorted]
    split
    · exact List.Perm.refl _
    · exact (List.Perm.cons y ih).trans (List.Perm.swap x y ys)

theorem perm_sortRows {α : Type} (le : α → α → Bool) (l : List α) :
    (sortRows le l).Perm l := by
  induction l with
  | nil => simp [sortRows]
  | cons x xs ih => exact (perm_insertSorted le x (sortRows le xs)).trans (ih.cons x)

theorem countP_sortRows {α : Type} (le : α → α → Bool) (p : α → Bool) (l : List α) :
    (sortRows le l).countP p = l.countP p := (perm_sortRows le l).countP_eq p

theorem countP_isSome_add_isNone (l : List LongRow) :
    l.countP (fun r => r.consumption.isSome) + l.countP (fun r => r.consumption.isNone) =
      l.length := by
  induction l with
  | nil => rfl
  | cons r rs ih =>
    rcases hc : r.consumption with _ | q <;>
      simp [List.countP_cons, hc, ← ih] <;> omega

theorem countP_enumFromMap_preserve (f : ℕ × LongRow → LongRow)
    (p : LongRow → Bool) (hf : ∀ i r, p (f (i, r)) = p r) :
    ∀ (n : ℕ) (l : List LongRow), ((List.enumFrom n l).map f).countP p = l.countP p := by
  intro n l
  induction l generalizing n with
  | nil => rfl
  | cons r rs ih => simp [List.enumFrom, List.countP_cons, hf, ih]

theorem mem_resampleWithReplacement {α : Type} (l : List (α × ℤ)) (n : ℕ)
    (x : α × ℤ) (hx : x ∈ resampleWithReplacement l n) : x ∈ l := by
  cases l with
  | nil => simp [resampleWithReplacement] at hx
  | cons a as =>
    simp only [resampleWithReplacement, List.mem_map] at hx
    obtain ⟨i, _, rfl⟩ := hx
    have hlt : i % (a :: as).length < (a :: as).length :=
      Nat.mod_lt _ (by simp)
    rw [List.getD_eq_getElem _ _ hlt]
    exact List.getElem_mem hlt

theorem length_resampleWithReplacement {α : Type} (l : List (α × ℤ)) (n : ℕ)
    (hl : l ≠ []) : (resampleWithReplacement l n).length = n := by
  cases l with
  | nil => exact absurd rfl hl
  | cons a as => simp [resampleWithReplacement]

theorem sum_map_const {β : Type} (L : List β) (c : ℕ) :
    (L.map (fun _ => c)).sum = L.length * c := by
  induction L with
  | nil => simp
  | cons b bs ih => simp [ih, Nat.succ_mul, Nat.add_comm]

theorem length_meltParsed (w : WideMatrix) :
    (meltParsed w).length = w.rows.length * w.dateHeaders.length := by
  simp only [meltParsed, List.length_flatten, List.map_map]
  have hconst : (List.length ∘ fun p : ℕ × String => w.rows.map (meltCell p.2 p.1)) =
      fun _ => w.rows.length := by
    funext p
    simp
  rw [hconst, sum_map_const, List.enum_length, Nat.mul_comm]

/-! ## Claim theorems -/

/-- C6: for all five component check results, `comprehensive_validation`
returns `validation_score = max(0, 100 - 10*total_errors - 2*total_warnings)`,
the score lies in [0, 100], a zero-error zero-warning dataset scores
exactly 100, and `overall_validity` holds exactly when all five
component checks are valid. -/
theorem c6_validation_score_aggregation (ty ra co ti bu : CheckResult) :
    let rep := comprehensive_validation ty ra co ti bu
    rep.validation_score =
      max 0 (100 - (rep.total_errors : ℤ) * 10 - (rep.total_warnings : ℤ) * 2) ∧
    0 ≤ rep.validation_score ∧ rep.validation_score ≤ 100 ∧
    (rep.total_errors = 0 → rep.total_warnings = 0 → rep.validation_score = 100) ∧
    (rep.overall_validity = true ↔
      ty.valid = true ∧ ra.valid = true ∧ co.valid = true ∧ ti.valid = true ∧
        bu.valid = true) := by
  refine ⟨?_, ?_, ?_, ?_, ?_⟩ <;>
    simp only [comprehensive_validation, Bool.and_eq_true] <;>
    first
      | omega
      | tauto

/-- C9: when the entity-identifier column `CONS_NO` or the label column
`FLAG` is absent from the wide input frame, `load_real_sgcc_data` aborts
the load with the fatal format error (the spec's `DataFormatError`,
raised as a `ValueError` in the source) instead of proceeding. -/
theorem c9_missing_column_aborts_load (raw : RawFrame)
    (h : raw.columns.contains ("CONS_NO") = false ∨
         raw.columns.contains ("FLAG") = false) :
    ∃ col, load_real_sgcc_data raw = .error (.dataFormatError col) ∧
      (col = "CONS_NO" ∨ col = "FLAG") := by
  unfold load_real_sgcc_data
  rcases h with h | h
  · have hmem : ("CONS_NO") ∉ raw.columns := by
      intro hmm
      rw [← List.elem_iff] at hmm
      exact absurd hmm (by simp [List.contains] at h ⊢; exact h)
    exact ⟨("CONS_NO"), by simp [hmem], Or.inl rfl⟩
  · have hmem : ("FLAG") ∉ raw.columns := by
      intro hmm
      rw [← List.elem_iff] at hmm
      exact absurd hmm (by simp [List.contains] at h ⊢; exact h)
    by_cases hc : ("CONS_NO") ∈ raw.columns
    · refine ⟨("FLAG"), ?_, Or.inr rfl⟩
      have hc2 : raw.columns.contains ("CONS_NO") = true := by
        rw [List.contains, List.elem_iff]
        exact hc
      simp [hc2, hc, hmem]
    · have hc2 : ¬ raw.columns.contains ("CONS_NO") = true := by
        rw [List.contains, List.elem_iff]
        exact hc
      exact ⟨("CONS_NO"), by simp [hc2, hc], Or.inl rfl⟩

/-- C9 witness: a concrete frame missing `FLAG` is rejected with the
format error. -/
theorem c9_missing_column_aborts_load_witness :
    ∃ col, load_real_sgcc_data { columns := [("CONS_NO"), ("1/1/2014")] } =
      .error (.dataFormatError col) ∧ (col = "CONS_NO" ∨ col = "FLAG") :=
  c9_missing_column_aborts_load _ (Or.inr (by decide))

/-- C4: for every wide matrix, the long table produced by the loader has
exactly (entity count) * (date-column count) rows minus exactly the
melted rows whose consumption is still non-numeric after coercion; no
other rows are removed or added. -/
theorem c4_wide_to_long_row_conservation (w : WideMatrix) :
    (convert_sgcc_wide_to_long w).length =
      w.rows.length * w.dateHeaders.length -
        (meltParsed w).countP (fun r => r.consumption.isNone) := by
  unfold convert_sgcc_wide_to_long
  set melted := meltParsed w with hm
  have hpres : ∀ (mapping : List (String × ℤ)) (dateCols : List String) (i : ℕ)
      (r : LongRow),
      (repairRow mapping dateCols (i, r)).consumption.isSome = r.consumption.isSome := by
    intro mapping dateCols i r
    unfold repairRow
    split
    · rcases dictGet mapping (dateCols.getD (i % dateCols.length) ("")) with _ | d <;> rfl
    · rfl
  have hkeep : ∀ repaired : List LongRow,
      repaired.countP (fun r => r.consumption.isSome) =
        melted.countP (fun r => r.consumption.isSome) →
      (sortRows longRowLe (repaired.filter (fun r => r.consumption.isSome))).length =
        w.rows.length * w.dateHeaders.length -
          melted.countP (fun r => r.consumption.isNone) := by
    intro repaired hcnt
    rw [length_sortRows, ← List.countP_eq_length_filter, hcnt]
    have := countP_isSome_add_isNone melted
    rw [hm] at this ⊢
    rw [length_meltParsed w] at this
    omega
  show (sortRows longRowLe (List.filter _ _)).length = _
  split
  · exact hkeep melted rfl
  · exact hkeep _ (countP_enumFromMap_preserve _ _ (hpres _ _) 0 melted)

/-- The C1 scenario: 2 entities, 5 date columns `1/1/2014`..`1/5/2014`,
the 3rd header corrupted, every consumption cell numeric. -/
def c1Wide : WideMatrix :=
  { dateHeaders := [("1/1/2014"), ("1/2/2014"), ("??/??/????"), ("1/4/2014"), ("1/5/2014")],
    rows := [ { consNo := ("A"), flag := 0,
                vals := [some 10, some 11, some 12, some 13, some 14] },
              { consNo := ("B"), flag := 1,
                vals := [some 20, some 21, some 22, some 23, some 24] } ] }

/-- C1: evaluation of the loader at the claim's own scenario. The repair
dict does map the corrupted 3rd column to `min date + 2 days = 1/3/2014`,
and the long table keeps all 10 rows with 0 dropped — but the fill loop
looks columns up through `idx % len(date_columns)`, which under 2
entities names the wrong (parseable, hence unmapped) columns, so the two
rows of the corrupted column keep a null date instead of the synthetic
`1/3/2014` the claim specifies. -/
theorem c1_synthetic_date_not_applied :
    dictGet (buildDateMapping c1Wide.dateHeaders (meltParsed c1Wide)
        (daysFromCivil 2014 1 1)) ("??/??/????") = some (daysFromCivil 2014 1 3) ∧
    (convert_sgcc_wide_to_long c1Wide).length = 10 ∧
    (convert_sgcc_wide_to_long c1Wide).countP (fun r => r.consumption.isNone) = 0 ∧
    (convert_sgcc_wide_to_long c1Wide).countP
      (fun r => r.date = some (daysFromCivil 2014 1 3)) = 0 ∧
    (convert_sgcc_wide_to_long c1Wide).countP (fun r => r.date.isNone) = 2 := by
  decide

/-! ## Missing-value lemmas for C5 / C7 -/

theorem mem_indexedSomes (l : List (Option ℚ)) (k : ℕ) (q : ℚ) :
    (k, q) ∈ indexedSomes l ↔ l[k]? = some (some q) := by
  simp only [indexedSomes, List.mem_filterMap]
  constructor
  · rintro ⟨p, hp, hmap⟩
    rcases h2 : p.2 with _ | v
    · rw [h2] at hmap
      simp at hmap
    · rw [h2] at hmap
      have h12 : p.1 = k ∧ v = q := by simpa using hmap
      have := List.mem_enum_iff_getElem?.mp hp
      rw [← h12.1, this, h2, h12.2]
  · intro hk
    refine ⟨(k, some q), List.mem_enum_iff_getElem?.mpr hk, rfl⟩

theorem length_interpolateBoth (l : List (Option ℚ)) :
    (interpolateBoth l).length = l.length := by
  simp [interpolateBoth, List.enum_length]

theorem length_ffillBfill (l : List (Option ℚ)) :
    (ffillBfill l).length = l.length := by
  simp [ffillBfill, List.enum_length]

theorem isSome_of_mem_interpolateBoth (l : List (Option ℚ))
    (hex : ∃ (k : ℕ) (q : ℚ), l[k]? = some (some q)) :
    ∀ x ∈ interpolateBoth l, x.isSome := by
  obtain ⟨k, q, hk⟩ := hex
  have hks : (k, q) ∈ indexedSomes l := (mem_indexedSomes l k q).mpr hk
  intro x hx
  simp only [interpolateBoth, List.mem_map] at hx
  obtain ⟨p, hp, rfl⟩ := hx
  rcases h2 : p.2 with _ | v
  case some => simp
  case none =>
    have hpl : l[p.1]? = some none := h2 ▸ List.mem_enum_iff_getElem?.mp hp
    have hkne : k ≠ p.1 := by
      intro h
      rw [h, hpl] at hk
      exact absurd (Option.some.injEq .. ▸ hk) (by simp)
    rcases Nat.lt_or_ge k p.1 with hlt | hge
    · have hmemf : (k, q) ∈ (indexedSomes l).filter (fun w => w.1 < p.1) :=
        List.mem_filter.mpr ⟨hks, by simpa using hlt⟩
      obtain ⟨jv, hjv⟩ := Option.isSome_iff_exists.mp
        (List.getLast?_isSome.mpr (List.ne_nil_of_mem hmemf))
      rcases hfnd : (indexedSomes l).find? (fun w => p.1 < w.1) with _ | kv <;>
        simp [hjv, hfnd]
    · have hplt : p.1 < k := lt_of_le_of_ne hge (Ne.symm hkne)
      rcases hgl : ((indexedSomes l).filter (fun w => w.1 < p.1)).getLast? with _ | jv
      · have : ((indexedSomes l).find? (fun w => p.1 < w.1)).isSome :=
          List.find?_isSome.mpr ⟨(k, q), hks, by simpa using hplt⟩
        obtain ⟨kv, hkv⟩ := Option.isSome_iff_exists.mp this
        simp [hgl, hkv]
      · rcases hfnd : (indexedSomes l).find? (fun w => p.1 < w.1) with _ | kv <;>
          simp [hgl, hfnd]

theorem isSome_of_mem_ffillBfill (l : List (Option ℚ))
    (hex : ∃ (k : ℕ) (q : ℚ), l[k]? = some (some q)) :
    ∀ x ∈ ffillBfill l, x.isSome := by
  obtain ⟨k, q, hk⟩ := hex
  have hks : (k, q) ∈ indexedSomes l := (mem_indexedSomes l k q).mpr hk
  intro x hx
  simp only [ffillBfill, List.mem_map] at hx
  obtain ⟨p, hp, rfl⟩ := hx
  rcases h2 : p.2 with _ | v
  case some => simp
  case none =>
    have hpl : l[p.1]? = some none := h2 ▸ List.mem_enum_iff_getElem?.mp hp
    have hkne : k ≠ p.1 := by
      intro h
      rw [h, hpl] at hk
      exact absurd (Option.some.injEq .. ▸ hk) (by simp)
    rcases Nat.lt_or_ge k p.1 with hlt | hge
    · have hmemf : (k, q) ∈ (indexedSomes l).filter (fun w => w.1 < p.1) :=
        List.mem_filter.mpr ⟨hks, by simpa using hlt⟩
      obtain ⟨jv, hjv⟩ := Option.isSome_iff_exists.mp
        (List.getLast?_isSome.mpr (List.ne_nil_of_mem hmemf))
      simp [hjv]
    · have hplt : p.1 < k := lt_of_le_of_ne hge (Ne.symm hkne)
      rcases hgl : ((indexedSomes l).filter (fun w => w.1 < p.1)).getLast? with _ | jv
      · have : ((indexedSomes l).find? (fun w => p.1 < w.1)).isSome :=
          List.find?_isSome.mpr ⟨(k, q), hks, by simpa using hplt⟩
        obtain ⟨kv, hkv⟩ := Option.isSome_iff_exists.mp this
        simp [hgl, hkv]
      · simp [hgl]

theorem take_filter_length_lt (s : List PRow) (i : ℕ) (r : PRow)
    (h : s[i]? = some r) (m : String) (hm : r.meter_id = m) :
    ((s.take i).filter (fun x => x.meter_id = m)).length <
      (s.filter (fun x => x.meter_id = m)).length := by
  have hi : i < s.length := by
    by_contra hge
    rw [List.getElem?_eq_none (Nat.le_of_not_lt hge)] at h
    exact absurd h (by simp)
  have hgete : s[i] = r := by
    have := List.getElem?_eq_getElem hi
    rw [h] at this
    exact (Option.some.injEq .. ▸ this.symm)
  conv_rhs => rw [← List.take_append_drop i s]
  rw [List.filter_append, List.drop_eq_getElem_cons hi, hgete,
    List.filter_cons_of_pos (by simpa using hm), List.length_append]
  simp

theorem transformPerMeter_length (f : List (Option ℚ) → List (Option ℚ))
    (s : List PRow) : (transformPerMeter f s).length = s.length := by
  simp [transformPerMeter, List.enum_length]

theorem transformPerMeter_isSome (f : List (Option ℚ) → List (Option ℚ))
    (hflen : ∀ l, (f l).length = l.length)
    (hfsome : ∀ l, (∃ (k : ℕ) (q : ℚ), l[k]? = some (some q)) → ∀ x ∈ f l, x.isSome)
    (s : List PRow) (r' : PRow) (hr' : r' ∈ transformPerMeter f s)
    (hex : ∃ r ∈ s, r.meter_id = r'.meter_id ∧ r.consumption.isSome) :
    r'.consumption.isSome := by
  simp only [transformPerMeter, List.mem_map] at hr'
  obtain ⟨p, hp, rfl⟩ := hr'
  obtain ⟨r₀, hr₀s, hr₀m, hr₀some⟩ := hex
  obtain ⟨q, hq⟩ := Option.isSome_iff_exists.mp hr₀some
  have hseqmem : r₀.consumption ∈
      (s.filter (fun x => x.meter_id = p.2.meter_id)).map (·.consumption) :=
    List.mem_map.mpr ⟨r₀, List.mem_filter.mpr ⟨hr₀s, by simpa using hr₀m⟩, rfl⟩
  obtain ⟨k, hk⟩ := List.mem_iff_getElem?.mp hseqmem
  have hrank : ((s.take p.1).filter (fun x => x.meter_id = p.2.meter_id)).length <
      (f ((s.filter (fun x => x.meter_id = p.2.meter_id)).map (·.consumption))).length := by
    rw [hflen, List.length_map]
    exact take_filter_length_lt s p.1 p.2 (List.mem_enum_iff_getElem?.mp hp) _ rfl
  have hmem : (f ((s.filter (fun x => x.meter_id = p.2.meter_id)).map (·.consumption))).getD
      ((s.take p.1).filter (fun x => x.meter_id = p.2.meter_id)).length none ∈
      f ((s.filter (fun x => x.meter_id = p.2.meter_id)).map (·.consumption)) := by
    rw [List.getD_eq_getElem _ _ hrank]
    exact List.getElem_mem hrank
  exact hfsome _ ⟨k, q, by rw [hk, hq]⟩ _ hmem

theorem uniqueMeters_foldl_subset (rows : List PRow) :
    ∀ (acc : List String) (x : String), x ∈ acc →
      x ∈ rows.foldl
        (fun acc r => if r.meter_id ∈ acc then acc else acc ++ [r.meter_id]) acc := by
  induction rows with
  | nil => intro acc x hx; exact hx
  | cons r rs ih =>
    intro acc x hx
    refine ih _ x ?_
    by_cases hc : r.meter_id ∈ acc
    · simpa [hc] using hx
    · simp only [hc, if_false]
      exact List.mem_append_left _ hx

theorem mem_uniqueMeters (rows : List PRow) (r : PRow) (hr : r ∈ rows) :
    r.meter_id ∈ uniqueMeters rows := by
  unfold uniqueMeters
  suffices h : ∀ (rows : List PRow) (acc : List String) (r : PRow), r ∈ rows →
      r.meter_id ∈ rows.foldl
        (fun acc r => if r.meter_id ∈ acc then acc else acc ++ [r.meter_id]) acc from
    h rows [] r hr
  intro rows
  induction rows with
  | nil => intro acc r hr; exact absurd hr (by simp)
  | cons r₀ rs ih =>
    intro acc r hr
    rcases List.mem_cons.mp hr with rfl | hmem
    · refine uniqueMeters_foldl_subset rs _ _ ?_
      show r.meter_id ∈ if r.meter_id ∈ acc then acc else acc ++ [r.meter_id]
      by_cases hc : r.meter_id ∈ acc
      · rw [if_pos hc]
        exact hc
      · simp only [hc, if_false]
        exact List.mem_append_right _ (by simp)
    · exact ih _ r hmem

theorem find?_map_keyed (L : List String) (g : String → Option ℚ) (m : String)
    (hm : m ∈ L) :
    ∃ kv, ((L.map (fun k => (k, g k))).find? (fun kv => kv.1 = m)) = some kv ∧
      kv.2 = g m := by
  induction L with
  | nil => exact absurd hm (by simp)
  | cons k ks ih =>
    by_cases hk : k = m
    · refine ⟨(k, g k), ?_, by rw [hk]⟩
      simp [List.find?, hk]
    · rcases List.mem_cons.mp hm with rfl | hmem
      · exact absurd rfl hk
      · obtain ⟨kv, hkv, hv⟩ := ih hmem
        exact ⟨kv, by simp [List.find?, hk, hkv], hv⟩

theorem listMeanOpt_isSome (l : List ℚ) (hl : l ≠ []) : (listMeanOpt l).isSome := by
  unfold listMeanOpt
  rw [if_neg (by simpa using List.length_pos.mpr hl |>.ne.symm)]
  rfl

theorem listMedianOpt_isSome (l : List ℚ) (hl : l ≠ []) : (listMedianOpt l).isSome := by
  unfold listMedianOpt
  have hlen : (sortQ l).length ≠ 0 := by
    rw [sortQ, length_sortRows]
    simpa using List.length_pos.mpr hl |>.ne.symm
  rw [if_neg (by simpa using hlen)]
  split <;> rfl

theorem mem_meterValues (rows : List PRow) (r : PRow) (q : ℚ) (hr : r ∈ rows)
    (hq : r.consumption = some q) : q ∈ meterValues rows r.meter_id := by
  unfold meterValues
  exact List.mem_filterMap.mpr ⟨r, List.mem_filter.mpr ⟨hr, by simp⟩, hq⟩

/-- C5 (amended): for the four documented strategies,
`handle_missing_values` preserves the row count, and after it runs the
consumption of every entity that has at least one non-null value is
completely filled; an entity whose values are all null keeps its nulls
(see the counterexample). -/
theorem c5_missing_value_handling (method : String) (rows : List PRow)
    (hm : method = "linear" ∨ method = "forward_fill" ∨ method = "mean" ∨
      method = "median") :
    (handle_missing_values method rows).length = rows.length ∧
    ∀ r' ∈ handle_missing_values method rows,
      (∃ r ∈ rows, r.meter_id = r'.meter_id ∧ r.consumption.isSome) →
      r'.consumption.isSome := by
  by_cases h0 : rows.countP (fun r => r.consumption.isNone) = 0
  · rw [handle_missing_values, if_pos h0]
    refine ⟨rfl, fun r' hr' _ => ?_⟩
    have := List.countP_eq_zero.mp h0 r' hr'
    rcases hc : r'.consumption with _ | v
    · exact absurd (by rw [hc]; rfl) this
    · rfl
  · have hmain : ∀ (f : List (Option ℚ) → List (Option ℚ)),
        (∀ l, (f l).length = l.length) →
        (∀ l, (∃ (k : ℕ) (q : ℚ), l[k]? = some (some q)) → ∀ x ∈ f l, x.isSome) →
        (transformPerMeter f (sortRows pRowLe rows)).length = rows.length ∧
        ∀ r' ∈ transformPerMeter f (sortRows pRowLe rows),
          (∃ r ∈ rows, r.meter_id = r'.meter_id ∧ r.consumption.isSome) →
          r'.consumption.isSome := by
      intro f hflen hfsome
      refine ⟨by rw [transformPerMeter_length, length_sortRows], ?_⟩
      intro r' hr' hex
      refine transformPerMeter_isSome f hflen hfsome _ r' hr' ?_
      obtain ⟨r, hrs, hrm, hrsome⟩ := hex
      exact ⟨r, ((perm_sortRows pRowLe rows).mem_iff).mpr hrs, hrm, hrsome⟩
    have hcentral : ∀ (central : List ℚ → Option ℚ),
        (∀ l, l ≠ [] → (central l).isSome) →
        ∀ r' ∈ rows.map (fun r =>
          if r.consumption.isNone then
            { r with consumption := (seriesGet ((uniqueMeters rows).map
                (fun m => (m, central (meterValues rows m)))) r.meter_id
                (central (rows.filterMap (·.consumption)))) }
          else r),
          (∃ r ∈ rows, r.meter_id = r'.meter_id ∧ r.consumption.isSome) →
          r'.consumption.isSome := by
      intro central hcen r' hr' hex
      simp only [List.mem_map] at hr'
      obtain ⟨r, hrmem, hr'eq⟩ := hr'
      by_cases hnull : r.consumption.isNone
      case neg =>
        rw [if_neg hnull] at hr'eq
        rw [← hr'eq]
        rcases hc : r.consumption with _ | v
        · exact absurd (by rw [hc]; rfl) hnull
        · rfl
      case pos =>
        rw [if_pos hnull] at hr'eq
        obtain ⟨r₀, hr₀s, hr₀m, hr₀some⟩ := hex
        have hmid : r'.meter_id = r.meter_id := by rw [← hr'eq]
        have hr₀m2 : r₀.meter_id = r.meter_id := hr₀m.trans hmid
        have hmm : r.meter_id ∈ uniqueMeters rows := hr₀m2 ▸ mem_uniqueMeters rows r₀ hr₀s
        obtain ⟨kv, hkv, hv⟩ :=
          find?_map_keyed (uniqueMeters rows) (fun m => central (meterValues rows m))
            r.meter_id hmm
        rw [← hr'eq]
        show (seriesGet _ _ _).isSome
        simp only [seriesGet, hkv]
        rw [hv]
        refine hcen _ ?_
        obtain ⟨q, hq⟩ := Option.isSome_iff_exists.mp hr₀some
        exact List.ne_nil_of_mem (hr₀m2 ▸ mem_meterValues rows r₀ q hr₀s hq)
    rcases hm with rfl | rfl | rfl | rfl
    · rw [handle_missing_values, if_neg h0, if_pos rfl]
      exact hmain interpolateBoth length_interpolateBoth isSome_of_mem_interpolateBoth
    · rw [handle_missing_values, if_neg h0, if_neg (by decide), if_pos rfl]
      exact hmain ffillBfill length_ffillBfill isSome_of_mem_ffillBfill
    · rw [handle_missing_values, if_neg h0, if_neg (by decide), if_neg (by decide),
        if_pos rfl]
      exact ⟨by simp, hcentral listMeanOpt listMeanOpt_isSome⟩
    · rw [handle_missing_values, if_neg h0, if_neg (by decide), if_neg (by decide),
        if_neg (by decide), if_pos rfl]
      exact ⟨by simp, hcentral listMedianOpt listMedianOpt_isSome⟩

/-- C5 witness: the amended theorem applied to a concrete two-row table
under the `linear` strategy. -/
theorem c5_missing_value_handling_witness :
    (handle_missing_values ("linear")
        [ { meter_id := ("W"), date := 0, consumption := none },
          { meter_id := ("W"), date := 1, consumption := some 5 } ]).length = 2 ∧
    ∀ r' ∈ handle_missing_values ("linear")
        [ { meter_id := ("W"), date := 0, consumption := none },
          { meter_id := ("W"), date := 1, consumption := some 5 } ],
      (∃ r ∈ [ ({ meter_id := ("W"), date := 0, consumption := none } : PRow),
               { meter_id := ("W"), date := 1, consumption := some 5 } ],
          r.meter_id = r'.meter_id ∧ r.consumption.isSome) →
      r'.consumption.isSome :=
  c5_missing_value_handling ("linear") _ (Or.inl rfl)

/-- C5 counterexample: a single entity whose consumption is entirely
null keeps a null under every one of the four strategies, so the claim's
unconditional "zero null values for all entities" is false. -/
theorem c5_all_null_entity_keeps_nulls :
    (handle_missing_values ("linear")
      [ { meter_id := ("M1"), date := 0, consumption := none } ]).countP
        (fun r => r.consumption.isNone) = 1 ∧
    (handle_missing_values ("forward_fill")
      [ { meter_id := ("M1"), date := 0, consumption := none } ]).countP
        (fun r => r.consumption.isNone) = 1 ∧
    (handle_missing_values ("mean")
      [ { meter_id := ("M1"), date := 0, consumption := none } ]).countP
        (fun r => r.consumption.isNone) = 1 ∧
    (handle_missing_values ("median")
      [ { meter_id := ("M1"), date := 0, consumption := none } ]).countP
        (fun r => r.consumption.isNone) = 1 := by
  decide

/-- C7: evaluation of the `mean` strategy at a table with an all-null
entity `A` and an entity `B` carrying the value 10. The global mean
exists (it is 10), yet `A` keeps its null: `meter_means.get(meter_id,
global_mean)` finds the key `A` (whose mean is NaN) and never falls back
to the global mean, contradicting the claim and the source's own
comment. The `median` strategy behaves identically. -/
theorem c7_no_global_fallback_for_all_null_entity :
    handle_missing_values ("mean")
        [ { meter_id := ("A"), date := 0, consumption := none },
          { meter_id := ("B"), date := 0, consumption := some 10 } ] =
      [ { meter_id := ("A"), date := 0, consumption := none },
        { meter_id := ("B"), date := 0, consumption := some 10 } ] ∧
    handle_missing_values ("median")
        [ { meter_id := ("A"), date := 0, consumption := none },
          { meter_id := ("B"), date := 0, consumption := some 10 } ] =
      [ { meter_id := ("A"), date := 0, consumption := none },
        { meter_id := ("B"), date := 0, consumption := some 10 } ] ∧
    ([ ({ meter_id := ("A"), date := 0, consumption := none } : PRow),
       { meter_id := ("B"), date := 0, consumption := some 10 } ].filterMap
        (·.consumption)) = [(10 : ℚ)] := by
  refine ⟨?_, ?_, by decide⟩ <;> decide

/-! ## Balancer lemmas for C2 / C8 -/

theorem apply_smote_fallback {α : Type} (available : Bool)
    (sampler : List (α × ℤ) → Except String (List (α × ℤ)))
    (rows : List (α × ℤ)) (v : String)
    (hfb : available = false ∨ ∃ e, sampler rows = .error e) :
    apply_smote available sampler rows v =
      (random_oversample rows (1 / 2), ("random_oversample")) := by
  unfold apply_smote
  rcases hfb with rfl | ⟨e, he⟩
  · rfl
  · cases available
    · rfl
    · simp [he]

theorem apply_adasyn_fallback {α : Type} (available : Bool)
    (sampler : List (α × ℤ) → Except String (List (α × ℤ)))
    (rows : List (α × ℤ))
    (hfb : available = false ∨ ∃ e, sampler rows = .error e) :
    apply_adasyn available sampler rows =
      (random_oversample rows (1 / 2), ("random_oversample")) := by
  unfold apply_adasyn
  rcases hfb with rfl | ⟨e, he⟩
  · rfl
  · cases available
    · rfl
    · simp [he]

theorem apply_combined_fallback {α : Type} (available : Bool)
    (sampler : List (α × ℤ) → Except String (List (α × ℤ)))
    (rows : List (α × ℤ)) (method : String)
    (hfb : available = false ∨ ∃ e, sampler rows = .error e) :
    apply_combined_sampling available sampler rows method =
      (random_oversample rows (1 / 2), ("random_oversample")) := by
  unfold apply_combined_sampling
  rcases hfb with rfl | ⟨e, he⟩
  · rfl
  · cases available
    · rfl
    · by_cases hme : method = "smote_tomek" ∨ method = "smote_enn"
      · simp [hme, he]
      · simp [hme]

/-- C2 (amended): for every synthetic balancing method, when
imbalanced-learn is unavailable or the sampler raises (as it does when
the minority class has fewer than `k_neighbors + 1` samples), the call
does fall back to random oversampling and the `balancing_method`
attribute records `random_oversample` — but the returned report's
`method` field records the originally requested method, not the
actually-used one. -/
theorem c2_fallback_report_method {α : Type} (available : Bool)
    (sampler : List (α × ℤ) → Except String (List (α × ℤ)))
    (rows : List (α × ℤ)) (method : String) (tr : ℚ)
    (hmethod : method = "smote" ∨ method = "borderline_smote" ∨
      method = "svm_smote" ∨ method = "adasyn" ∨ method = "smote_tomek" ∨
      method = "smote_enn")
    (hfb : available = false ∨ ∃ e, sampler rows = .error e) :
    ∃ rep : BalanceReport,
      balance_dataset available sampler rows method tr =
        .ok (random_oversample rows (1 / 2), rep, ("random_oversample")) ∧
      rep.method = method := by
  have hok : ∀ bal : List (α × ℤ) × String,
      balance_dispatch available sampler rows method tr = .ok bal →
      balance_dataset available sampler rows method tr =
        .ok (bal.1,
          { method := method,
            original_samples := rows.length,
            balanced_samples := bal.1.length,
            samples_added := (bal.1.length : ℤ) - (rows.length : ℤ),
            original_imbalance_ratio :=
              (analyze_class_distribution (rows.map (·.2))).imbalance_ratio,
            balanced_imbalance_ratio :=
              (analyze_class_distribution (bal.1.map (·.2))).imbalance_ratio },
          bal.2) := by
    intro bal hd
    unfold balance_dataset
    rw [hd]
  rcases hmethod with rfl | rfl | rfl | rfl | rfl | rfl <;>
    exact ⟨_, hok (random_oversample rows (1 / 2), ("random_oversample"))
      (by simp only [balance_dispatch, reduceIte,
            apply_smote_fallback available sampler rows _ hfb,
            apply_adasyn_fallback available sampler rows hfb,
            apply_combined_fallback available sampler rows _ hfb] <;> rfl),
      rfl⟩

/-- C2 witness: the amended theorem at a concrete two-sample table with
imbalanced-learn unavailable and the `adasyn` method requested. -/
theorem c2_fallback_report_method_witness :
    ∃ rep : BalanceReport,
      balance_dataset false (fun _ => .error ("ValueError"))
          [((0 : ℕ), (0 : ℤ)), ((1 : ℕ), (1 : ℤ))] ("adasyn") (3 / 10) =
        .ok (random_oversample [((0 : ℕ), (0 : ℤ)), ((1 : ℕ), (1 : ℤ))] (1 / 2),
          rep, ("random_oversample")) ∧
      rep.method = "adasyn" :=
  c2_fallback_report_method false _ _ _ _
    (Or.inr (Or.inr (Or.inr (Or.inl rfl)))) (Or.inl rfl)

/-- C2 counterexample: with imbalanced-learn unavailable and `smote`
requested, the fallback to random oversampling occurs (the
`balancing_method` attribute reads `random_oversample`), yet the
returned report's `method` field reads `smote` — the originally
requested method — so the claim that the report records the
actually-used method name is false. -/
theorem c2_report_method_is_requested_not_actual :
    (balance_dataset false (fun _ => .error ("ValueError"))
        [((0 : ℕ), (0 : ℤ)), ((1 : ℕ), (1 : ℤ))] ("smote") (3 / 10)).map
      (fun t => (t.2.1.method, t.2.2)) =
      .ok (("smote"), ("random_oversample")) ∧
    ("smote") ≠ ("random_oversample") := by
  exact ⟨rfl, by decide⟩

theorem countP_filter_self {α : Type} (rows : List (α × ℤ)) (v : ℤ) :
    (rows.filter (fun p => p.2 = v)).countP (fun p => p.2 = v) =
      (rows.filter (fun p => p.2 = v)).length := by
  refine List.countP_eq_length.mpr ?_
  intro a ha
  exact (List.mem_filter.mp ha).2

theorem label_of_mem_filter_label {α : Type} (rows : List (α × ℤ)) (v : ℤ)
    (x : α × ℤ) (hx : x ∈ rows.filter (fun p => p.2 = v)) : x.2 = v := by
  have := (List.mem_filter.mp hx).2
  simpa using this

theorem ratio_term_mono (r1 r2 : ℚ) (_h1 : 0 ≤ r1) (h12 : r1 ≤ r2) (h2 : r2 < 1) :
    r1 / (1 - r1) ≤ r2 / (1 - r2) := by
  have hp1 : (0 : ℚ) < 1 - r1 := by linarith
  have hp2 : (0 : ℚ) < 1 - r2 := by linarith
  rw [div_le_div_iff₀ hp1 hp2]
  nlinarith

theorem oversampleTarget_mono (M : ℕ) (r1 r2 : ℚ) (h1 : 0 ≤ r1) (h12 : r1 ≤ r2)
    (h2 : r2 < 1) : oversampleTarget M r1 ≤ oversampleTarget M r2 := by
  unfold oversampleTarget
  refine Int.toNat_le_toNat (Int.floor_le_floor ?_)
  rw [mul_div_assoc, mul_div_assoc]
  exact mul_le_mul_of_nonneg_left (ratio_term_mono r1 r2 h1 h12 h2) (by positivity)

theorem proportion_mono (M t1 t2 : ℕ) (hM : 1 ≤ M) (ht : t1 ≤ t2) :
    (t1 : ℚ) / ((M : ℚ) + t1) ≤ (t2 : ℚ) / ((M : ℚ) + t2) := by
  have hMq : (1 : ℚ) ≤ (M : ℚ) := by exact_mod_cast hM
  have htq : (t1 : ℚ) ≤ (t2 : ℚ) := by exact_mod_cast ht
  have ht1 : (0 : ℚ) ≤ (t1 : ℚ) := by positivity
  have hd1 : (0 : ℚ) < (M : ℚ) + t1 := by positivity
  have hd2 : (0 : ℚ) < (M : ℚ) + t2 := by positivity
  rw [div_le_div_iff₀ hd1 hd2]
  nlinarith

/-- C8: `random_oversample` keeps every majority sample unchanged and
redraws the minority to the size the target ratio determines, so the
total afterwards is the majority count plus the achieved minority count;
and raising the requested target ratio (weakly) raises the realized
minority proportion. The concrete `{0:950, 1:50}` scenario is the
witness theorem. -/
theorem c8_random_oversample_counts {α : Type} (rows : List (α × ℤ)) (r1 r2 : ℚ)
    (h1 : 0 ≤ r1) (h12 : r1 ≤ r2) (h2 : r2 < 1)
    (hmin : rows.filter (fun p => p.2 = 1) ≠ []) :
    random_oversample rows r1 =
      rows.filter (fun p => p.2 = 0) ++
        resampleWithReplacement (rows.filter (fun p => p.2 = 1))
          (oversampleTarget (rows.filter (fun p => p.2 = 0)).length r1) ∧
    (∀ x ∈ resampleWithReplacement (rows.filter (fun p => p.2 = 1))
        (oversampleTarget (rows.filter (fun p => p.2 = 0)).length r1),
      x ∈ rows.filter (fun p => p.2 = 1)) ∧
    (random_oversample rows r1).countP (fun p => p.2 = 0) =
      (rows.filter (fun p => p.2 = 0)).length ∧
    (random_oversample rows r1).countP (fun p => p.2 = 1) =
      oversampleTarget (rows.filter (fun p => p.2 = 0)).length r1 ∧
    (random_oversample rows r1).length =
      (rows.filter (fun p => p.2 = 0)).length +
        oversampleTarget (rows.filter (fun p => p.2 = 0)).length r1 ∧
    ((rows.filter (fun p => p.2 = 0)).length ≥ 1 →
      ((oversampleTarget (rows.filter (fun p => p.2 = 0)).length r1 : ℚ) /
          ((rows.filter (fun p => p.2 = 0)).length +
            oversampleTarget (rows.filter (fun p => p.2 = 0)).length r1) ≤
        (oversampleTarget (rows.filter (fun p => p.2 = 0)).length r2 : ℚ) /
          ((rows.filter (fun p => p.2 = 0)).length +
            oversampleTarget (rows.filter (fun p => p.2 = 0)).length r2))) := by
  have hform : random_oversample rows r1 =
      rows.filter (fun p => p.2 = 0) ++
        resampleWithReplacement (rows.filter (fun p => p.2 = 1))
          (oversampleTarget (rows.filter (fun p => p.2 = 0)).length r1) := rfl
  refine ⟨hform, fun x hx => mem_resampleWithReplacement _ _ x hx, ?_, ?_, ?_, ?_⟩
  · rw [hform, List.countP_append, countP_filter_self,
      List.countP_eq_zero.mpr, Nat.add_zero]
    intro x hx
    have hx1 := label_of_mem_filter_label rows 1 x (mem_resampleWithReplacement _ _ x hx)
    simp [hx1]
  · rw [hform, List.countP_append, List.countP_eq_zero.mpr, Nat.zero_add]
    · rw [List.countP_eq_length.mpr, length_resampleWithReplacement _ _ hmin]
      intro x hx
      have := label_of_mem_filter_label rows 1 x (mem_resampleWithReplacement _ _ x hx)
      simp [this]
    · intro x hx
      have := label_of_mem_filter_label rows 0 x hx
      simp [this]
  · rw [hform, List.length_append, length_resampleWithReplacement _ _ hmin]
  · intro hM1
    exact proportion_mono _ _ _ hM1
      (oversampleTarget_mono _ r1 r2 h1 h12 h2)

/-- C8 witness: with class counts `{0: 950, 1: 50}` and target ratio
0.5, the minority count after random oversampling is exactly 950 and the
total is exactly 1900. -/
theorem c8_random_oversample_counts_witness :
    (random_oversample
        (List.replicate 950 (((0 : ℕ), (0 : ℤ))) ++
          List.replicate 50 (((0 : ℕ), (1 : ℤ)))) (1 / 2)).countP
      (fun p => p.2 = 1) = 950 ∧
    (random_oversample
        (List.replicate 950 (((0 : ℕ), (0 : ℤ))) ++
          List.replicate 50 (((0 : ℕ), (1 : ℤ)))) (1 / 2)).length = 1900 := by
  have hfil0 : (List.replicate 950 (((0 : ℕ), (0 : ℤ))) ++
      List.replicate 50 (((0 : ℕ), (1 : ℤ)))).filter (fun p => p.2 = 0) =
      List.replicate 950 (((0 : ℕ), (0 : ℤ))) := by
    rw [List.filter_append, List.filter_replicate, List.filter_replicate]
    norm_num
  have hfil1 : (List.replicate 950 (((0 : ℕ), (0 : ℤ))) ++
      List.replicate 50 (((0 : ℕ), (1 : ℤ)))).filter (fun p => p.2 = 1) =
      List.replicate 50 (((0 : ℕ), (1 : ℤ))) := by
    rw [List.filter_append, List.filter_replicate, List.filter_replicate]
    norm_num
  have hmin : (List.replicate 950 (((0 : ℕ), (0 : ℤ))) ++
      List.replicate 50 (((0 : ℕ), (1 : ℤ)))).filter (fun p => p.2 = 1) ≠ [] := by
    rw [hfil1]
    simp
  have htarget : oversampleTarget ((List.replicate 950 (((0 : ℕ), (0 : ℤ))) ++
      List.replicate 50 (((0 : ℕ), (1 : ℤ)))).filter (fun p => p.2 = 0)).length
      (1 / 2) = 950 := by
    rw [hfil0, List.length_replicate]
    unfold oversampleTarget
    norm_num
    rfl
  obtain ⟨-, -, -, hcnt1, hlen, -⟩ :=
    c8_random_oversample_counts
      (List.replicate 950 (((0 : ℕ), (0 : ℤ))) ++ List.replicate 50 (((0 : ℕ), (1 : ℤ))))
      (1 / 2) (1 / 2) (by norm_num) le_rfl (by norm_num) hmin
  refine ⟨?_, ?_⟩
  · rw [hcnt1, htarget]
  · rw [hlen, htarget, hfil0, List.length_replicate]

/-! ## Outlier-capping lemmas for C3 -/

theorem sum_sq_nonneg (l : List ℝ) (c : ℝ) :
    0 ≤ (l.map (fun x => (x - c) ^ 2)).sum := by
  refine List.sum_nonneg ?_
  intro x hx
  obtain ⟨y, _, rfl⟩ := List.mem_map.mp hx
  positivity

theorem listMeanR_nonneg (l : List ℝ) (h : ∀ x ∈ l, 0 ≤ x) : 0 ≤ listMeanR l := by
  unfold listMeanR
  exact div_nonneg (List.sum_nonneg h) (by positivity)

theorem popVarR_nonneg (l : List ℝ) : 0 ≤ popVarR l := by
  unfold popVarR
  exact div_nonneg (sum_sq_nonneg l _) (by positivity)

theorem sum_nonneg_all_zero (l : List ℝ) (hnn : ∀ x ∈ l, 0 ≤ x) (hs : l.sum = 0) :
    ∀ x ∈ l, x = 0 := by
  induction l with
  | nil => intro x hx; exact absurd hx (by simp)
  | cons a as ih =>
    have ha : 0 ≤ a := hnn a (by simp)
    have has : 0 ≤ as.sum := List.sum_nonneg (fun x hx => hnn x (by simp [hx]))
    rw [List.sum_cons] at hs
    have ha0 : a = 0 := by linarith
    have hs0 : as.sum = 0 := by linarith
    intro x hx
    rcases List.mem_cons.mp hx with rfl | hx2
    · exact ha0
    · exact ih (fun y hy => hnn y (by simp [hy])) hs0 x hx2

theorem eq_mean_of_popStd_zero (l : List ℝ) (hne : l ≠ [])
    (h : popStdR l = 0) : ∀ x ∈ l, x = listMeanR l := by
  have hvar : popVarR l = 0 := by
    have := Real.sqrt_eq_zero (popVarR_nonneg l) |>.mp h
    exact this
  have hlen : (l.length : ℝ) ≠ 0 := by
    simpa using List.length_pos.mpr hne |>.ne.symm
  have hsum : (l.map (fun x => (x - listMeanR l) ^ 2)).sum = 0 := by
    unfold popVarR at hvar
    exact (div_eq_zero_iff.mp hvar).resolve_right hlen
  intro x hx
  have hz := sum_nonneg_all_zero _ (fun y hy => by
      obtain ⟨z, _, rfl⟩ := List.mem_map.mp hy
      positivity) hsum ((x - listMeanR l) ^ 2) (List.mem_map.mpr ⟨x, hx, rfl⟩)
  have := pow_eq_zero_iff (n := 2) (by norm_num) |>.mp hz
  linarith [sub_eq_zero.mp this]

theorem popStdR_le_sampleStdR (l : List ℝ) (hlen : 2 ≤ l.length) :
    popStdR l ≤ sampleStdR l := by
  unfold popStdR sampleStdR
  refine Real.sqrt_le_sqrt ?_
  unfold popVarR sampleVarR
  have h2 : (2 : ℝ) ≤ (l.length : ℝ) := by exact_mod_cast hlen
  have hS := sum_sq_nonneg l (listMeanR l)
  have h1 : (0 : ℝ) < (l.length : ℝ) - 1 := by linarith
  have h0 : (0 : ℝ) < (l.length : ℝ) := by linarith
  exact div_le_div_of_nonneg_left hS h1 (by linarith)

theorem clipR_mem (x lo hi : ℝ) (h : lo ≤ hi) :
    lo ≤ clipR x lo hi ∧ clipR x lo hi ≤ hi := by
  unfold clipR
  exact ⟨le_min (le_max_right x lo) h, min_le_right _ _⟩

theorem bounds_of_no_outlier (T : ℝ) (vals : List ℝ) (hT : 0 ≤ T)
    (hnn : ∀ x ∈ vals, 0 ≤ x) (hno : ¬ AnyZOutlier T vals) :
    ∀ v ∈ vals,
      max 0 (listMeanR vals - T * sampleStdR vals) ≤ v ∧
      v ≤ listMeanR vals + T * sampleStdR vals := by
  intro v hv
  have hstd1 : 0 ≤ sampleStdR vals := Real.sqrt_nonneg _
  have habs : |v - listMeanR vals| ≤ T * sampleStdR vals := by
    by_cases h0 : popStdR vals = 0
    · have := eq_mean_of_popStd_zero vals (List.ne_nil_of_mem hv) h0 v hv
      rw [this]
      simpa using mul_nonneg hT hstd1
    · have hdivle : |v - listMeanR vals| / popStdR vals ≤ T := by
        by_contra hgt
        exact hno ⟨v, hv, h0, lt_of_not_le hgt⟩
      have hpos : 0 < popStdR vals :=
        lt_of_le_of_ne (Real.sqrt_nonneg _) (Ne.symm h0)
      have h1 : |v - listMeanR vals| ≤ T * popStdR vals :=
        (div_le_iff₀ hpos).mp hdivle
      have hlen2 : 2 ≤ vals.length := by
        by_contra hlt
        push_neg at hlt
        interval_cases hl : vals.length
        · exact absurd (List.length_eq_zero.mp hl ▸ hv) (by simp)
        · obtain ⟨a, ha⟩ := List.length_eq_one.mp hl
          refine h0 ?_
          have hmean : listMeanR [a] = a := by
            unfold listMeanR
            simp
          rw [ha]
          unfold popStdR popVarR
          rw [hmean]
          simp
      have h2 : popStdR vals ≤ sampleStdR vals := popStdR_le_sampleStdR vals hlen2
      calc |v - listMeanR vals| ≤ T * popStdR vals := h1
        _ ≤ T * sampleStdR vals := mul_le_mul_of_nonneg_left h2 hT
  obtain ⟨hlo, hhi⟩ := abs_le.mp habs
  refine ⟨max_le (hnn v hv) (by linarith), by linarith⟩

/-- C3 (amended): for every entity with more than 10 rows (the source
gates on `len(meter_data) > 10`, not `>= 10`), a nonnegative threshold
and nonnegative consumption, every non-null consumption value of that
entity after z-score outlier handling lies within
`[max(0, mean - T*std), mean + T*std]`, with mean and sample std taken
from the entity's pre-capping values; rows are capped, never deleted. -/
theorem c3_zscore_capping_bounds (rows : List PRow) (T : ℝ) (m : String)
    (hT : 0 ≤ T)
    (hnn : ∀ r ∈ rows, r.meter_id = m → ∀ q : ℚ, r.consumption = some q → 0 ≤ q)
    (hcount : 10 < (rows.filter (fun x => x.meter_id = m)).length) :
    (detect_and_remove_outliers_zscore T rows).length = rows.length ∧
    ∀ r' ∈ detect_and_remove_outliers_zscore T rows, r'.meter_id = m →
      ∀ v : ℝ, r'.consumption = some v →
        max 0 (listMeanR (meterValuesR rows m) - T * sampleStdR (meterValuesR rows m)) ≤ v ∧
        v ≤ listMeanR (meterValuesR rows m) + T * sampleStdR (meterValuesR rows m) := by
  have hvalnn : ∀ x ∈ meterValuesR rows m, 0 ≤ x := by
    intro x hx
    obtain ⟨r₀, hr₀, hc₀⟩ := List.mem_filterMap.mp hx
    obtain ⟨q0, hq0, hx0⟩ := Option.map_eq_some'.mp hc₀
    have hm₀ : r₀.meter_id = m := by
      have := (List.mem_filter.mp hr₀).2
      simpa using this
    have hq0nn : (0 : ℚ) ≤ q0 := hnn r₀ (List.mem_filter.mp hr₀).1 hm₀ q0 hq0
    rw [← hx0]
    show (0 : ℝ) ≤ (q0 : ℝ)
    exact_mod_cast hq0nn
  refine ⟨by simp [detect_and_remove_outliers_zscore], ?_⟩
  intro r' hr' hm v hv
  simp only [detect_and_remove_outliers_zscore, List.mem_map] at hr'
  obtain ⟨r, hrmem, heq⟩ := hr'
  have hrm : r.meter_id = m := by
    rw [← heq] at hm
    by_cases hc : 10 < (rows.filter (fun x => x.meter_id = r.meter_id)).length ∧
        AnyZOutlier T (meterValuesR rows r.meter_id)
    · rw [if_pos hc] at hm
      exact hm
    · rw [if_neg hc] at hm
      exact hm
  subst hrm
  rw [← heq] at hv
  by_cases hc : 10 < (rows.filter (fun x => x.meter_id = r.meter_id)).length ∧
      AnyZOutlier T (meterValuesR rows r.meter_id)
  · rw [if_pos hc] at hv
    simp only [Option.map_eq_some'] at hv
    obtain ⟨q, hq, rfl⟩ := hv
    refine clipR_mem _ _ _ ?_
    have hμ : 0 ≤ listMeanR (meterValuesR rows r.meter_id) := listMeanR_nonneg _ hvalnn
    have hσ : 0 ≤ sampleStdR (meterValuesR rows r.meter_id) := Real.sqrt_nonneg _
    refine max_le ?_ ?_
    · exact add_nonneg hμ (mul_nonneg hT hσ)
    · nlinarith [mul_nonneg hT hσ]
  · rw [if_neg hc] at hv
    simp only [Option.map_eq_some'] at hv
    obtain ⟨q, hq, rfl⟩ := hv
    have hno : ¬ AnyZOutlier T (meterValuesR rows r.meter_id) := by
      intro hany
      exact hc ⟨hcount, hany⟩
    have hqmem : qr q ∈ meterValuesR rows r.meter_id := by
      refine List.mem_filterMap.mpr ⟨r, List.mem_filter.mpr ⟨hrmem, by simp⟩, ?_⟩
      rw [hq]
      rfl
    exact bounds_of_no_outlier T _ hT hvalnn hno _ hqmem

/-- C3 witness: the amended theorem applied to an 11-row entity at
threshold 3. -/
theorem c3_zscore_capping_bounds_witness :
    (detect_and_remove_outliers_zscore 3
      [ { meter_id := ("M"), date := 0, consumption := some 142 },
        { meter_id := ("M"), date := 1, consumption := some 58 },
        { meter_id := ("M"), date := 2, consumption := some 106 },
        { meter_id := ("M"), date := 3, consumption := some 94 },
        { meter_id := ("M"), date := 4, consumption := some 100 },
        { meter_id := ("M"), date := 5, consumption := some 100 },
        { meter_id := ("M"), date := 6, consumption := some 100 },
        { meter_id := ("M"), date := 7, consumption := some 100 },
        { meter_id := ("M"), date := 8, consumption := some 100 },
        { meter_id := ("M"), date := 9, consumption := some 100 },
        { meter_id := ("M"), date := 10, consumption := some 100 } ]).length = 11 ∧
    ∀ r' ∈ detect_and_remove_outliers_zscore 3
      [ { meter_id := ("M"), date := 0, consumption := some 142 },
        { meter_id := ("M"), date := 1, consumption := some 58 },
        { meter_id := ("M"), date := 2, consumption := some 106 },
        { meter_id := ("M"), date := 3, consumption := some 94 },
        { meter_id := ("M"), date := 4, consumption := some 100 },
        { meter_id := ("M"), date := 5, consumption := some 100 },
        { meter_id := ("M"), date := 6, consumption := some 100 },
        { meter_id := ("M"), date := 7, consumption := some 100 },
        { meter_id := ("M"), date := 8, consumption := some 100 },
        { meter_id := ("M"), date := 9, consumption := some 100 },
        { meter_id := ("M"), date := 10, consumption := some 100 } ], r'.meter_id = ("M") →
      ∀ v : ℝ, r'.consumption = some v →
        max 0 (listMeanR (meterValuesR
            [ { meter_id := ("M"), date := 0, consumption := some 142 },
              { meter_id := ("M"), date := 1, consumption := some 58 },
              { meter_id := ("M"), date := 2, consumption := some 106 },
              { meter_id := ("M"), date := 3, consumption := some 94 },
              { meter_id := ("M"), date := 4, consumption := some 100 },
              { meter_id := ("M"), date := 5, consumption := some 100 },
              { meter_id := ("M"), date := 6, consumption := some 100 },
              { meter_id := ("M"), date := 7, consumption := some 100 },
              { meter_id := ("M"), date := 8, consumption := some 100 },
              { meter_id := ("M"), date := 9, consumption := some 100 },
              { meter_id := ("M"), date := 10, consumption := some 100 } ] ("M")) -
          3 * sampleStdR (meterValuesR
            [ { meter_id := ("M"), date := 0, consumption := some 142 },
              { meter_id := ("M"), date := 1, consumption := some 58 },
              { meter_id := ("M"), date := 2, consumption := some 106 },
              { meter_id := ("M"), date := 3, consumption := some 94 },
              { meter_id := ("M"), date := 4, consumption := some 100 },
              { meter_id := ("M"), date := 5, consumption := some 100 },
              { meter_id := ("M"), date := 6, consumption := some 100 },
              { meter_id := ("M"), date := 7, consumption := some 100 },
              { meter_id := ("M"), date := 8, consumption := some 100 },
              { meter_id := ("M"), date := 9, consumption := some 100 },
              { meter_id := ("M"), date := 10, consumption := some 100 } ] ("M"))) ≤ v ∧
        v ≤ listMeanR (meterValuesR
            [ { meter_id := ("M"), date := 0, consumption := some 142 },
              { meter_id := ("M"), date := 1, consumption := some 58 },
              { meter_id := ("M"), date := 2, consumption := some 106 },
              { meter_id := ("M"), date := 3, consumption := some 94 },
              { meter_id := ("M"), date := 4, consumption := some 100 },
              { meter_id := ("M"), date := 5, consumption := some 100 },
              { meter_id := ("M"), date := 6, consumption := some 100 },
              { meter_id := ("M"), date := 7, consumption := some 100 },
              { meter_id := ("M"), date := 8, consumption := some 100 },
              { meter_id := ("M"), date := 9, consumption := some 100 },
              { meter_id := ("M"), date := 10, consumption := some 100 } ] ("M")) +
          3 * sampleStdR (meterValuesR
            [ { meter_id := ("M"), date := 0, consumption := some 142 },
              { meter_id := ("M"), date := 1, consumption := some 58 },
              { meter_id := ("M"), date := 2, consumption := some 106 },
              { meter_id := ("M"), date := 3, consumption := some 94 },
              { meter_id := ("M"), date := 4, consumption := some 100 },
              { meter_id := ("M"), date := 5, consumption := some 100 },
              { meter_id := ("M"), date := 6, consumption := some 100 },
              { meter_id := ("M"), date := 7, consumption := some 100 },
              { meter_id := ("M"), date := 8, consumption := some 100 },
              { meter_id := ("M"), date := 9, consumption := some 100 },
              { meter_id := ("M"), date := 10, consumption := some 100 } ] ("M")) :=
  c3_zscore_capping_bounds _ 3 ("M") (by norm_num)
    (by
      intro r hr hm q hq
      fin_cases hr <;> simp_all <;> linarith)
    (by decide)

/-- The C3 counterexample table: an entity with exactly 10 points whose
pre-capping mean is 100 and sample std is exactly 20. -/
def c3Rows : List PRow :=
  [ { meter_id := ("M"), date := 0, consumption := some 142 },
    { meter_id := ("M"), date := 1, consumption := some 58 },
    { meter_id := ("M"), date := 2, consumption := some 106 },
    { meter_id := ("M"), date := 3, consumption := some 94 },
    { meter_id := ("M"), date := 4, consumption := some 100 },
    { meter_id := ("M"), date := 5, consumption := some 100 },
    { meter_id := ("M"), date := 6, consumption := some 100 },
    { meter_id := ("M"), date := 7, consumption := some 100 },
    { meter_id := ("M"), date := 8, consumption := some 100 },
    { meter_id := ("M"), date := 9, consumption := some 100 } ]

/-- C3 counterexample: entity `M` has exactly 10 points (so "at least
10" holds), yet at threshold 2 the value 142 survives z-score handling
unchanged and exceeds `mean + 2*std = 100 + 2*20 = 140` by 2 units —
far beyond floating-point tolerance — because the source's gate is
`len(meter_data) > 10`. -/
theorem c3_ten_point_entity_not_capped :
    (c3Rows.filter (fun r => r.meter_id = ("M"))).length = 10 ∧
    ∃ r' ∈ detect_and_remove_outliers_zscore 2 c3Rows,
      r'.meter_id = ("M") ∧ r'.consumption = some (qr 142) ∧
      listMeanR (meterValuesR c3Rows ("M")) +
        2 * sampleStdR (meterValuesR c3Rows ("M")) < 142 := by
  have hlen10 : (c3Rows.filter (fun r => r.meter_id = ("M"))).length = 10 := by decide
  have hfalse : ∀ s : String, s = ("M") →
      ¬ (10 < (c3Rows.filter (fun x => x.meter_id = s)).length ∧
        AnyZOutlier 2 (meterValuesR c3Rows s)) := by
    rintro s rfl h
    rw [hlen10] at h
    exact absurd h.1 (by norm_num)
  have hall : ∀ r ∈ c3Rows, r.meter_id = ("M") := by decide
  have heval : detect_and_remove_outliers_zscore 2 c3Rows =
      c3Rows.map (fun r =>
        { meter_id := r.meter_id, date := r.date,
          consumption := r.consumption.map qr }) := by
    unfold detect_and_remove_outliers_zscore
    refine List.map_congr_left ?_
    intro r hr
    rw [if_neg (hfalse r.meter_id (hall r hr))]
  have hμ : listMeanR (meterValuesR c3Rows ("M")) = 100 := by
    have hlist : meterValuesR c3Rows ("M") =
        [(142 : ℝ), 58, 106, 94, 100, 100, 100, 100, 100, 100] := by
      have h0 : meterValuesR c3Rows ("M") =
          [qr 142, qr 58, qr 106, qr 94, qr 100, qr 100, qr 100, qr 100, qr 100,
            qr 100] := rfl
      rw [h0]
      norm_num [qr]
    rw [hlist]
    norm_num [listMeanR]
  have hσ : sampleStdR (meterValuesR c3Rows ("M")) = 20 := by
    have hlist : meterValuesR c3Rows ("M") =
        [(142 : ℝ), 58, 106, 94, 100, 100, 100, 100, 100, 100] := by
      have h0 : meterValuesR c3Rows ("M") =
          [qr 142, qr 58, qr 106, qr 94, qr 100, qr 100, qr 100, qr 100, qr 100,
            qr 100] := rfl
      rw [h0]
      norm_num [qr]
    have hvar : sampleVarR (meterValuesR c3Rows ("M")) = 400 := by
      rw [hlist]
      norm_num [sampleVarR, listMeanR]
    unfold sampleStdR
    rw [hvar, show (400 : ℝ) = 20 ^ 2 by norm_num, Real.sqrt_sq (by norm_num)]
  refine ⟨hlen10, ?_⟩
  refine ⟨{ meter_id := ("M"), date := 0,
            consumption := some (qr 142) }, ?_, rfl, rfl, ?_⟩
  · rw [heval]
    exact List.mem_map.mpr ⟨{ meter_id := ("M"), date := 0, consumption := some 142 },
      by decide, rfl⟩
  · rw [hμ, hσ]
    norm_num

/-! ## Feature-combination lemmas for C10 -/

theorem lookupS_map_keyed {β : Type} (L : List String) (g : String → β) (m : String)
    (hm : m ∈ L) :
    lookupS (L.map (fun k => (k, g k))) m = some (g m) := by
  induction L with
  | nil => exact absurd hm (by simp)
  | cons k ks ih =>
    by_cases hk : k = m
    · subst hk
      simp [lookupS, List.find?]
    · rcases List.mem_cons.mp hm with rfl | hmem
      · exact absurd rfl hk
      · have := ih hmem
        simpa [lookupS, List.find?, hk] using this

theorem uniqueStrings_foldl_subset (l : List String) :
    ∀ (acc : List String) (x : String), x ∈ acc →
      x ∈ l.foldl (fun acc s => if s ∈ acc then acc else acc ++ [s]) acc := by
  induction l with
  | nil => intro acc x hx; exact hx
  | cons s ss ih =>
    intro acc x hx
    refine ih _ x ?_
    by_cases hc : s ∈ acc
    · simpa [hc] using hx
    · simp only [hc, if_false]
      exact List.mem_append_left _ hx

theorem mem_uniqueStrings (l : List String) (x : String) (hx : x ∈ l) :
    x ∈ uniqueStrings l := by
  unfold uniqueStrings
  suffices h : ∀ (l : List String) (acc : List String) (x : String), x ∈ l →
      x ∈ l.foldl (fun acc s => if s ∈ acc then acc else acc ++ [s]) acc from
    h l [] x hx
  intro l
  induction l with
  | nil => intro acc x hx; exact absurd hx (by simp)
  | cons s ss ih =>
    intro acc x hx
    rcases List.mem_cons.mp hx with rfl | hmem
    · refine uniqueStrings_foldl_subset ss _ _ ?_
      show x ∈ if x ∈ acc then acc else acc ++ [x]
      by_cases hc : x ∈ acc
      · rw [if_pos hc]
        exact hc
      · rw [if_neg hc]
        exact List.mem_append_right _ (by simp)
    · exact ih _ x hmem

theorem patternValues_length (df : List FRow) (s : String) :
    (patternValues df s).length = (df.filter (fun x => x.meter_id = s)).length := by
  unfold patternValues
  rw [List.length_map]
  exact ((perm_sortRows fRowLe df).filter _).length_eq

/-- C10: an entity with fewer than 30 rows gets no row from the pattern
block, so in the combined feature table (when the combination succeeds:
full temporal coverage and at least one entity with 30 or more rows) all
of its `pattern_*` columns are exactly 0 after the left merge and
`fillna(0)`, while its statistical and temporal features are the block
outputs computed from its own data. -/
theorem c10_small_entity_pattern_features_zero (df : List FRow) (m : String)
    (hmem : m ∈ df.map (fun r => r.meter_id))
    (hsmall : (df.filter (fun x => x.meter_id = m)).length < 30)
    (hcov : temporalCoverage df = true)
    (hbig : ∃ r ∈ df, 30 ≤ (df.filter (fun x => x.meter_id = r.meter_id)).length) :
    ∃ tbl, combine_all_features df = some tbl ∧
      lookupS tbl m = some
        (((statFeaturesNamed (statValues df m)).map (fun p => (p.1, p.2.getD 0)))
          ++ temporalFeaturesNamed df m
          ++ patternNames.map (fun nm => (nm, (0 : ℝ)))) := by
  have hlookupP : lookupS (create_consumption_pattern_features df) m = none := by
    have hfind : (create_consumption_pattern_features df).find? (fun kv => kv.1 = m) =
        none := by
      refine List.find?_eq_none.mpr ?_
      intro x hx
      simp only [create_consumption_pattern_features, List.mem_filterMap] at hx
      obtain ⟨m2, hm2, hsome⟩ := hx
      by_cases hlen : (patternValues df m2).length < 30
      · rw [if_pos hlen] at hsome
        exact absurd hsome (by simp)
      · rw [if_neg hlen] at hsome
        have hx2 : (m2, patternFeaturesNamed (patternValues df m2)) = x := by
          injection hsome
        have hx1 : x.1 = m2 := by
          rw [← hx2]
        intro hpred
        have hm2m : m2 = m := by
          have hxm : x.1 = m := by simpa using hpred
          rw [← hx1, hxm]
        rw [hm2m, patternValues_length] at hlen
        exact hlen hsmall
    unfold lookupS
    rw [hfind]
    rfl
  have hne : create_consumption_pattern_features df ≠ [] := by
    obtain ⟨r, hr, hrlen⟩ := hbig
    have hmemU2 : r.meter_id ∈ uniqueStrings ((sortRows fRowLe df).map (fun x => x.meter_id)) := by
      refine mem_uniqueStrings _ _ ?_
      exact List.mem_map.mpr ⟨r, ((perm_sortRows fRowLe df).mem_iff).mpr hr, rfl⟩
    refine List.ne_nil_of_mem (l := create_consumption_pattern_features df)
      (a := (r.meter_id, patternFeaturesNamed (patternValues df r.meter_id))) ?_
    simp only [create_consumption_pattern_features, List.mem_filterMap]
    refine ⟨r.meter_id, hmemU2, ?_⟩
    rw [if_neg ?_]
    rw [patternValues_length]
    omega
  have hmemS : m ∈ metersSortedF df := by
    unfold metersSortedF
    refine ((perm_sortRows strLe _).mem_iff).mpr ?_
    obtain ⟨r, hr, rfl⟩ := List.mem_map.mp hmem
    exact mem_uniqueStrings _ _ (List.mem_map.mpr ⟨r, hr, rfl⟩)
  have hEf : (create_consumption_pattern_features df).isEmpty = false :=
    List.isEmpty_eq_false.mpr hne
  have hct : create_temporal_features df =
      some ((metersSortedF df).map (fun m3 => (m3, temporalFeaturesNamed df m3))) := by
    unfold create_temporal_features
    rw [if_pos hcov]
  have heq : combine_all_features df = some ((metersSortedF df).map (fun m2 =>
      (m2, ((statFeaturesNamed (statValues df m2)).map (fun p => (p.1, p.2.getD 0)))
        ++ (match lookupS ((metersSortedF df).map
              (fun m3 => (m3, temporalFeaturesNamed df m3))) m2 with
            | some t => t
            | none => [])
        ++ (match lookupS (create_consumption_pattern_features df) m2 with
            | some pf => pf
            | none => patternNames.map (fun nm => (nm, (0 : ℝ))))))) := by
    unfold combine_all_features
    rw [hct]
    show (if (create_consumption_pattern_features df).isEmpty = true then none
      else some ((metersSortedF df).map (fun m2 =>
        (m2, ((statFeaturesNamed (statValues df m2)).map (fun p => (p.1, p.2.getD 0)))
          ++ (match lookupS ((metersSortedF df).map
                (fun m3 => (m3, temporalFeaturesNamed df m3))) m2 with
              | some t => t
              | none => [])
          ++ (match lookupS (create_consumption_pattern_features df) m2 with
              | some pf => pf
              | none => patternNames.map (fun nm => (nm, (0 : ℝ)))))))) = _
    rw [hEf]
    rfl
  refine ⟨_, heq, ?_⟩
  rw [lookupS_map_keyed _ _ m hmemS]
  rw [lookupS_map_keyed _ _ m hmemS, hlookupP]

/-- The C10 witness table: meter `B` with 36 rows spread over the first
three days of every month of 2014 (covering all weekdays, months, and
both weekend flags) and meter `A` with only 3 rows. -/
def c10df : List FRow :=
  ((List.range 36).map (fun i =>
    { meter_id := ("B"), date := daysFromCivil 2014 (i / 3 + 1) (i % 3 + 1),
      consumption := 1 }))
  ++ [ { meter_id := ("A"), date := 0, consumption := 5 },
       { meter_id := ("A"), date := 1, consumption := 5 },
       { meter_id := ("A"), date := 2, consumption := 5 } ]

/-- C10 witness: the theorem applied to the concrete table, where meter
`A` has 3 < 30 rows and meter `B` keeps the combination alive. -/
theorem c10_small_entity_pattern_features_zero_witness :
    ∃ tbl, combine_all_features c10df = some tbl ∧
      lookupS tbl ("A") = some
        (((statFeaturesNamed (statValues c10df ("A"))).map (fun p => (p.1, p.2.getD 0)))
          ++ temporalFeaturesNamed c10df ("A")
          ++ patternNames.map (fun nm => (nm, (0 : ℝ)))) :=
  c10_small_entity_pattern_features_zero c10df ("A")
    (by decide) (by decide) (by decide) (by decide)

end ETD
